import Mathlib

/-!
Verification of the defio workload/sqlgen core against its specification.

Conventions used throughout this development:
* Python `datetime` values are modelled as absolute timestamps in integer
  microseconds; `timedelta` values as signed integer microseconds (Python
  timedeltas have exact microsecond resolution).
* Fallible Python code (raising exceptions) is modelled with `Option`/`Except`.
* Python's `%` on integers/timedeltas follows the sign of the divisor
  (floor modulo); this is `Int.fmod` in Lean.
* Clock reads (`get_current_time`, `get_event_loop_time`, `perf_counter`) are
  modelled by an explicit stream `clock : Nat → Int` together with a counter
  that advances on every read.
* The pseudo-random generator (`numpy.random.default_rng(seed)`) is a
  deterministic function of its seed; it is modelled by a draw stream
  `Nat → Nat` indexed by a draw counter.  Weights passed to a draw shape only
  its distribution, not its determinism, so the model ignores them.

The file is organized as definitions first, then the theorems.
-/

namespace Defio

/-- Kinds of Python exceptions raised by the modelled code. -/
inductive PyError where
  | valueError (msg : String)
  | assertionError
  | runtimeError (msg : String)
deriving Repr, DecidableEq

/-! ## Schedule model (`defio/workload/schedule.py`) -/

namespace Schedule

/-- `Repeat` schedule: repeats every `interval` from `startTime` until
`endTime` (all in microseconds). -/
structure RepeatSched where
  interval : Int
  startTime : Int
  endTime : Int
deriving Repr, DecidableEq

/-- `Repeat.__attrs_post_init__` asserts `start_time <= end_time`; construction
returns `none` (an `AssertionError`) when the assertion fails. -/
def mkRepeat (interval startTime endTime : Int) : Option RepeatSched :=
  if startTime ≤ endTime then some ⟨interval, startTime, endTime⟩ else none

/-- `Repeat.time_until_next`, evaluated at the wall-clock time `now`
(the code reads `get_current_time()`; here the clock sample is explicit).
Python's `%` on timedeltas is floor modulo (`Int.fmod`). -/
def RepeatSched.timeUntilNext (s : RepeatSched) (now : Int) : Int :=
  if now ≤ s.startTime then s.startTime - now
  else if s.endTime < now then s.endTime - now
  else
    let elapsedTime := now - s.startTime
    let timeSinceLastEvent := Int.fmod elapsedTime s.interval
    let timeUntilNextEvent := Int.fmod (s.interval - timeSinceLastEvent) s.interval
    min timeUntilNextEvent (s.endTime - now)

/-- `Repeat.starting_now(*, interval, num_repeat)` (the `num_repeat` overload):
raises `ValueError` when `num_repeat < 1`, and otherwise constructs
`Repeat(interval, start_time, start_time + num_repeat * interval)`, whose
constructor asserts `start_time <= end_time`. -/
def startingNowNumRepeat (interval now numRepeat : Int) : Except PyError RepeatSched :=
  if numRepeat < 1 then
    .error (.valueError "`num_repeat` must be at least 1")
  else
    match mkRepeat interval now (now + numRepeat * interval) with
    | some r => .ok r
    | none => .error .assertionError

end Schedule

/-! ## Runner model (`defio/workload/runner.py`, `defio/workload/query.py`) -/

namespace Runner

/-- Exceptions captured by the executor are opaque; only their identity
matters to the runner. -/
abbrev Exn := String

/-- A query's schedule: `Once` at an absolute time, or a `Repeat`. -/
inductive Sched where
  | once (at_ : Int)
  | rep (r : Schedule.RepeatSched)
deriving Repr, DecidableEq

/-- `Sched.timeUntilNext` at wall-clock time `now` (`Once` returns
`at - now`). -/
def Sched.timeUntilNext : Sched → Int → Int
  | .once t, now => t - now
  | .rep r, now => r.timeUntilNext now

/-- `User` from `defio/workload/user.py` (module not under `src/`); the runner
treats users as opaque identities. -/
structure User where
  uid : Nat
deriving Repr, DecidableEq

/-- `Query`: a SQL string plus its execution schedule. -/
structure Query where
  sql : String
  schedule : Sched
deriving Repr, DecidableEq

/-- `ScheduledQuery`: a query scheduled to run once at some future time. -/
structure ScheduledQuery where
  user : User
  query : Query
  processedTime : Int
  scheduledTime : Int
deriving Repr, DecidableEq

/-- `QueryReport` (generic in the row type `ρ`, like Python's `_T`). -/
structure QueryReport (ρ : Type) where
  user : User
  query : Query
  processedTime : Int
  scheduledTime : Int
  executedTime : Int
  executionTime : Int
  results : Option (List ρ)
  error : Option Exn
deriving Repr, DecidableEq

/-- `ScheduledQuery.create_report`. -/
def ScheduledQuery.createReport (sq : ScheduledQuery) (executedTime executionTime : Int)
    (results : Option (List ρ)) (error : Option Exn) : QueryReport ρ :=
  ⟨sq.user, sq.query, sq.processedTime, sq.scheduledTime, executedTime,
    executionTime, results, error⟩

/-- Items of the per-user scheduled priority queue: a scheduled query or the
`DONE` sentinel (pushed with priority `+inf`, modelled as `none`). -/
inductive SItem where
  | sq (s : ScheduledQuery)
  | done
deriving Repr, DecidableEq

/-- Priority with `+inf` (`none`) above every finite priority. -/
def prioLe : Option Int → Option Int → Bool
  | some a, some b => a ≤ b
  | some _, none => true
  | none, some _ => false
  | none, none => true

/-- Insert into the priority queue, keeping it sorted by priority (new items
go after existing items of equal priority). -/
def pqInsert (p : Option Int) (it : SItem) :
    List (Option Int × SItem) → List (Option Int × SItem)
  | [] => [(p, it)]
  | (q, jt) :: rest =>
      if prioLe q p then (q, jt) :: pqInsert p it rest
      else (p, it) :: (q, jt) :: rest

/-- `_process_single_query`: samples the wall clock (`processed_time`), the
event-loop clock plus a `time_until_next` wall-clock read (the priority), and
another `time_until_next` wall-clock read (the `scheduled_time`), then pushes
the started query onto the scheduled queue.  Returns the new queue and clock
counter. -/
def processSingleQuery (clock : Nat → Int) (ctr : Nat) (user : User) (query : Query)
    (queue : List (Option Int × SItem)) : List (Option Int × SItem) × Nat :=
  let processedTime := clock ctr
  let internalPrio := clock (ctr + 1) + query.schedule.timeUntilNext (clock (ctr + 2))
  let scheduledTime := processedTime + query.schedule.timeUntilNext (clock (ctr + 3))
  (pqInsert (some internalPrio) (.sq ⟨user, query, processedTime, scheduledTime⟩) queue,
    ctr + 4)

/-- Items of the shared completed queue: a report or a `DONE` sentinel. -/
inductive CItem (ρ : Type) where
  | report (r : QueryReport ρ)
  | done
deriving Repr, DecidableEq

/-- The reports among a list of completed-queue items. -/
def reportsOf : List (CItem ρ) → List (QueryReport ρ)
  | [] => []
  | .report r :: rest => r :: reportsOf rest
  | .done :: rest => reportsOf rest

/-- Result of running the executor worker for a bounded number of loop
iterations: the items it pushed onto the completed queue (in order), the
number of query executions it performed, and whether it was still awaiting
work when the fuel ran out. -/
structure ExecOut (ρ : Type) where
  completed : List (CItem ρ)
  numExecs : Nat
  blocked : Bool
deriving Repr

/-- `_executor_worker` (`defio/workload/runner.py` lines 114-177), modelled as
a fuel-bounded loop over the scheduled queue.  `execO i` is the outcome of the
`i`-th execution: the rows drained from `connection.execute`, or the exception
raised during connect/execute (caught by the `except Exception` handler).
Each execution consumes one event-loop read (the sleep check), one wall-clock
read (`measurement.start_time`) and one monotonic elapsed reading
(`measurement.elapsed_time`); a repeating query additionally consumes a
`time_until_next` read and, if re-enqueued, the reads of
`_process_single_query`.  The tail of one iteration is `rescheduleStep`:
`isinstance(schedule, Repeat)` and `time_until_next() >= 0` decide whether the
just-executed query is re-enqueued through `_process_single_query`. -/
def rescheduleStep (clock : Nat → Int) (ctr : Nat) (sq : ScheduledQuery)
    (rest : List (Option Int × SItem)) : List (Option Int × SItem) × Nat :=
  match sq.query.schedule with
  | .rep r =>
      if 0 ≤ r.timeUntilNext (clock (ctr + 3)) then
        processSingleQuery clock (ctr + 4) sq.user sq.query rest
      else
        (rest, ctr + 4)
  | .once _ => (rest, ctr + 3)

/-- `_executor_worker` loop, fuel-bounded (see `rescheduleStep` above for the
documentation of the whole iteration). -/
def executorRun (execO : Nat → Except Exn (List ρ)) (clock : Nat → Int) :
    Nat → List (Option Int × SItem) → Nat → Nat → ExecOut ρ
  | 0, _, _, _ => ⟨[], 0, true⟩
  | _ + 1, [], _, _ => ⟨[], 0, true⟩
  | _ + 1, (_, .done) :: _, _, _ => ⟨[.done], 0, false⟩
  | fuel + 1, (_, .sq sq) :: rest, ctr, eidx =>
      let executedTime := clock (ctr + 1)
      let outcome := execO eidx
      let results : Option (List ρ) :=
        match outcome with
        | .ok rows => some rows
        | .error _ => none
      let error : Option Exn :=
        match outcome with
        | .ok _ => none
        | .error e => some e
      let executionTime := clock (ctr + 2)
      let report := sq.createReport executedTime executionTime results error
      let qc := rescheduleStep clock ctr sq rest
      let rec0 := executorRun execO clock fuel qc.1 qc.2 (eidx + 1)
      ⟨.report report :: rec0.completed, rec0.numExecs + 1, rec0.blocked⟩

/-- Concrete fixtures used by witness theorems: a single `Once` query followed
by the producer's `DONE` sentinel, with an oracle that succeeds on the first
execution. -/
def exScheduledQuery : ScheduledQuery :=
  ⟨⟨0⟩, ⟨"SELECT 1;", .once 0⟩, 0, 0⟩

def exOracle : Nat → Except Exn (List Nat) :=
  fun i => if i = 0 then .ok [7] else .error "boom"

def exQueue : List (Option Int × SItem) :=
  [(some 0, .sq exScheduledQuery), (none, .done)]

def exReport : QueryReport Nat :=
  ⟨⟨0⟩, ⟨"SELECT 1;", .once 0⟩, 0, 0, 0, 0, some [7], none⟩

/-- Items of the completed queue as seen by the reporter worker; the report
payload is opaque here. -/
inductive RItem (ρ : Type) where
  | report (r : ρ)
  | done
deriving Repr, DecidableEq

/-- Observable reporter events: a `reporter.report(r)` call or a
`reporter.done()` call. -/
inductive REv (ρ : Type) where
  | report (r : ρ)
  | done
deriving Repr, DecidableEq

/-- Result of the reporter worker: the reporter calls it made in order,
whether it re-raised a cancellation, and whether it was still awaiting more
queue items (which cannot happen in a real run, where one `DONE` arrives per
user). -/
structure ReporterOut (ρ : Type) where
  events : List (REv ρ)
  raised : Bool
  starved : Bool
deriving Repr, DecidableEq

/-- The cancellation drain (`except asyncio.CancelledError` branch of
`_reporter_worker`): report every remaining queue item, skipping `DONE`
sentinels. -/
def drainRemaining : List (RItem ρ) → List (REv ρ)
  | [] => []
  | .report r :: rest => .report r :: drainRemaining rest
  | .done :: rest => drainRemaining rest

/-- The number of `DONE` sentinels in a queue trace. -/
def countDone : List (RItem ρ) → Nat
  | [] => 0
  | .report _ :: rest => countDone rest
  | .done :: rest => countDone rest + 1

/-- The report payloads in a queue trace, in order. -/
def reportsIn : List (RItem ρ) → List ρ
  | [] => []
  | .report r :: rest => r :: reportsIn rest
  | .done :: rest => reportsIn rest

/-- The number of `reporter.done()` calls in an event trace. -/
def countDoneEv : List (REv ρ) → Nat
  | [] => 0
  | .report _ :: rest => countDoneEv rest
  | .done :: rest => countDoneEv rest + 1

/-- Concrete completed-queue trace for two users, used by a witness
theorem. -/
def exRItems : List (RItem Nat) := [.report 1, .done, .report 2, .done]

/-- `_reporter_worker` (`defio/workload/runner.py` lines 179-219), modelled
over the sequence of completed-queue items it consumes.  `cancelAt = some k`
means the task group's cancellation fires at the worker's next queue
interaction after it has consumed `k` items (the suspension points are the
`completed_queue.get()` and `reporter.report` awaits); the worker then drains
the remaining items and calls `reporter.done()` once before re-raising. -/
def reporterWorker (numUsers : Nat) (cancelAt : Option Nat) :
    List (RItem ρ) → Nat → Nat → ReporterOut ρ
  | items, numDone, consumed =>
    if cancelAt = some consumed then
      ⟨drainRemaining items ++ [.done], true, false⟩
    else
      match items with
      | [] => ⟨[], false, true⟩
      | .report r :: rest =>
          let out := reporterWorker numUsers cancelAt rest numDone (consumed + 1)
          ⟨.report r :: out.events, out.raised, out.starved⟩
      | .done :: rest =>
          if numDone + 1 = numUsers then ⟨[.done], false, false⟩
          else reporterWorker numUsers cancelAt rest (numDone + 1) (consumed + 1)

end Runner

/-! ## Report line model (`defio/workload/reporter.py`) -/

namespace Report

/-- JSON scalar values appearing in result rows. -/
inductive JScalar where
  | null
  | bool (b : Bool)
  | int (n : Int)
  | str (s : String)
deriving Repr, DecidableEq

/-- JSON values of a report line.  `json.dumps`/`json.loads` handle the text
layer; the embedding works at the JSON value level, keeping numbers exact. -/
inductive JVal where
  | null
  | bool (b : Bool)
  | int (n : Int)
  | num (q : Rat)
  | str (s : String)
  | arr (elems : List JVal)
deriving Repr

def JScalar.toJVal : JScalar → JVal
  | .null => .null
  | .bool b => .bool b
  | .int n => .int n
  | .str s => .str s

def JVal.asScalar : JVal → Option JScalar
  | .null => some .null
  | .bool b => some (.bool b)
  | .int n => some (.int n)
  | .str s => some (.str s)
  | _ => none

/-- `MinimumQueryReport`: SQL string, execution time (`timedelta`, in
microseconds) and the result tuples.  The `results` field is typed as a
sequence in Python, but the `to_tuple` converter passes `None` through
unchanged, so a failed report's `None` results survive construction. -/
structure MinimumQueryReport where
  sql : String
  executionTime : Int
  results : Option (List (List JScalar))
deriving Repr, DecidableEq

/-- `timedelta.total_seconds()`, exactly (microseconds over 10^6). -/
def timedeltaTotalSeconds (us : Int) : Rat := (us : Rat) / 1000000

/-- Python's round-half-even, used by `timedelta(seconds=...)` when
converting a seconds value to whole microseconds. -/
def pyRoundHalfEven (q : Rat) : Int :=
  let f : Int := ⌊q⌋
  let frac := q - (f : Rat)
  if frac < 1 / 2 then f
  else if 1 / 2 < frac then f + 1
  else if f % 2 = 0 then f else f + 1

/-- `timedelta(seconds=q)` as a count of microseconds. -/
def timedeltaOfSeconds (q : Rat) : Int := pyRoundHalfEven (q * 1000000)

/-- `MinimumQueryReport.to_str`: the JSON object written as one line
(`json.dumps` of a dict with keys in this order). -/
def MinimumQueryReport.toJson (r : MinimumQueryReport) : List (String × JVal) :=
  [("sql", .str r.sql),
   ("execution_time", .num (timedeltaTotalSeconds r.executionTime)),
   ("results",
     match r.results with
     | none => .null
     | some rows => .arr (rows.map (fun row => .arr (row.map JScalar.toJVal))))]

/-- `json_dict[key]` lookup on a parsed JSON object. -/
def lookupJson (kvs : List (String × JVal)) (k : String) : Option JVal :=
  (kvs.find? (fun kv => kv.1 == k)).map (·.2)

/-- Collect an optional value per element, failing if any element fails
(Python raises on the first bad element). -/
def mapMOpt (f : α → Option β) : List α → Option (List β)
  | [] => some []
  | a :: l =>
      match f a, mapMOpt f l with
      | some b, some bs => some (b :: bs)
      | _, _ => none

/-- One result row from its JSON form (`tuple(result_tuple)`). -/
def rowFromJson : JVal → Option (List JScalar)
  | .arr elems => mapMOpt JVal.asScalar elems
  | _ => none

/-- `MinimumQueryReport.from_str`: reads `sql`, rebuilds the `timedelta` from
the `execution_time` seconds value, and converts each entry of `results` back
into a tuple.  Any shape mismatch (e.g. a null `results`) raises in Python and
is `none` here. -/
def MinimumQueryReport.fromJson (j : List (String × JVal)) : Option MinimumQueryReport :=
  match lookupJson j "sql", lookupJson j "execution_time", lookupJson j "results" with
  | some (.str sql), some (.num q), some (.arr rows) =>
      match mapMOpt rowFromJson rows with
      | some rs => some ⟨sql, timedeltaOfSeconds q, some rs⟩
      | none => none
  | _, _, _ => none

/-- `FileQueryReporter.report`: the JSON line appended to the report file for
a given `QueryReport` (builds a `MinimumQueryReport` from the report's SQL,
execution time and results, then serializes it). -/
def fileReportLine (qr : Runner.QueryReport (List JScalar)) : List (String × JVal) :=
  (MinimumQueryReport.mk qr.query.sql qr.executionTime qr.results).toJson

end Report

/-! ## SQL generator model (`defio/sqlgen/...`)

The schema module `defio/sql/schema.py` is not under `src/` (only its `htap`
predecessor is); its entities below are modelled from the spec (§3) and the
`htap` analog. -/

namespace SqlGen

/-- Modelled from the spec: `DataType` of `defio.sql.schema` (module missing
from `src/`): one of Integer, Float, String, Boolean. -/
inductive DataType where
  | integer
  | float
  | string
  | boolean
deriving Repr, DecidableEq

/-- Modelled from the spec: `ColumnConstraint` of `defio.sql.schema` (module
missing from `src/`): primary/foreign key, uniqueness, nullability and the
optional varchar length. -/
structure ColumnConstraint where
  isPrimaryKey : Bool
  isForeignKey : Bool
  isUnique : Bool
  isNotNull : Bool
  maxCharLength : Option Nat
deriving Repr, DecidableEq

/-- Modelled from the spec: `Column` of `defio.sql.schema` (module missing
from `src/`). -/
structure Column where
  name : String
  dtype : DataType
  constraint : ColumnConstraint
deriving Repr, DecidableEq

/-- Modelled from the spec: `Table` of `defio.sql.schema` (module missing from
`src/`). -/
structure Table where
  name : String
  columns : List Column
deriving Repr, DecidableEq

/-- Modelled from the spec: `TableColumn` record of `defio.sql.schema`. -/
structure TableColumn where
  table : Table
  column : Column
deriving Repr, DecidableEq

/-- Modelled from the spec: `Schema` with its FK `RelationshipGraph`, stored
as the directed edge list (§3, §9: nodes are the tables' table-columns, edges
the FK references; `possible_joins` is the union of forward and reverse
adjacency). -/
structure Schema where
  tables : List Table
  relationships : List (TableColumn × TableColumn)
deriving Repr, DecidableEq

/-- `RelationshipGraph.get_possible_joins(t, c)`: forward and reverse FK
neighbors of `(t, c)`.  The Python result is a set; here it is a canonical
deduplicated list, and every set iteration applies the run's order oracle on
top. -/
def possibleJoins (schema : Schema) (t : Table) (c : Column) : List TableColumn :=
  (((schema.relationships.filter (fun e => e.1 == TableColumn.mk t c)).map (·.2)) ++
    ((schema.relationships.filter (fun e => e.2 == TableColumn.mk t c)).map (·.1))).dedup

/-- Python floats are opaque data in this model: the sqlgen pipeline never
computes with them (weights only shape RNG distributions, which the RNG
oracle absorbs; stats values are only compared to NaN or rendered).  `isNan`
supports `math.isnan`, `rep` is the `str()` rendering. -/
structure PyFloat where
  isNan : Bool
  rep : String
deriving Repr, DecidableEq

/-- Values held by categorical/key column statistics (homogeneous per
column). -/
inductive PyVal where
  | int (n : Int)
  | str (s : String)
  | bool (b : Bool)
deriving Repr, DecidableEq

/-- `ColumnStats` variants (`defio/dataset/column_stats.py`), restricted to
the fields the predicate sampler reads: the keys of
`CategoricalColumnStats.most_frequent_values`, `KeyColumnStats.sampled_values`,
`NumericalColumnStats.mean`/`percentiles`, and the keys of
`RawStringColumnStats.frequent_words`.  Key/value dict orders are
insertion-deterministic in Python, so they are plain lists here. -/
inductive ColumnStats where
  | categorical (mostFrequentValues : List PyVal)
  | key (sampledValues : List PyVal)
  | numerical (mean : PyFloat) (percentiles : List PyFloat)
  | rawString (frequentWords : List String)
deriving Repr, DecidableEq

/-- `DataStats`: per-table, per-column statistics, looked up by structural
equality (Python dicts keyed by the attrs-frozen `Table`/`Column` values);
a missing entry raises (`none`). -/
def DataStats := List (Table × List (Column × ColumnStats))

/-- `DataStats.get(table).get(column)`. -/
def statsGet (stats : DataStats) (t : Table) (c : Column) : Option ColumnStats := do
  let ts ← (stats.find? (fun p => p.1 == t)).map (·.2)
  (ts.find? (fun p => p.1 == c)).map (·.2)

/-- Code-point comparison of char lists (Python string `<`). -/
def strLtL : List Char → List Char → Bool
  | [], [] => false
  | [], _ :: _ => true
  | _ :: _, [] => false
  | c :: cs, d :: ds =>
      if c.toNat < d.toNat then true
      else if d.toNat < c.toNat then false
      else strLtL cs ds

/-- Python string `<` (code-point lexicographic, like Lean's). -/
def strLt (a b : String) : Bool := strLtL a.data b.data

/-- Python string `<=`. -/
def strLe (a b : String) : Bool := strLt a b || a == b

/-- `UniqueTable` (`defio/sqlgen/ast/helper.py`): identity-based wrapper
around `Table`.  Python object identity (`id`) is modelled as a creation
counter `uid` assigned in allocation order; `sort_unique_tables` breaks ties
among wrappers of same-named tables by this identity. -/
structure UniqueTable where
  table : Table
  uid : Nat
deriving Repr, DecidableEq

/-- `sort_unique_tables` (`defio/sqlgen/utils.py`): sort by
`(table.name, id(unique_table))`. -/
def utLeB (u1 u2 : UniqueTable) : Bool :=
  strLt u1.table.name u2.table.name ||
    (u1.table.name == u2.table.name && u1.uid ≤ u2.uid)

def sortUniqueTables (uts : List UniqueTable) : List UniqueTable :=
  List.insertionSort (fun a b => utLeB a b = true) uts

/-- `JoinEdge` (`defio/sqlgen/sampler/join.py`): two table-column pairs that
can be joined; stored as the construction-ordered pair. -/
structure JoinEdge where
  first : TableColumn
  second : TableColumn
deriving Repr, DecidableEq

/-- `JoinEdge.__eq__`/`__hash__`: unordered-pair (frozenset) equality. -/
def JoinEdge.beq (a b : JoinEdge) : Bool :=
  (a.first == b.first && a.second == b.second) ||
    (a.first == b.second && a.second == b.first)

/-- Membership of an edge in a Python set of edges, up to `JoinEdge.beq`. -/
def edgeMem (e : JoinEdge) (l : List JoinEdge) : Bool := l.any (JoinEdge.beq e)

/-- Python-set deduplication: keep the first of `beq`-equal elements
(`seen` accumulates the already-kept elements). -/
def dedupEdgesAux (seen : List JoinEdge) : List JoinEdge → List JoinEdge
  | [] => []
  | e :: rest =>
      if edgeMem e seen then dedupEdgesAux seen rest
      else e :: dedupEdgesAux (e :: seen) rest

def dedupEdges (l : List JoinEdge) : List JoinEdge := dedupEdgesAux [] l

/-- `stringify` inside `sort_join_edges`: `f"{table.name}.{column.name}"`. -/
def stringifyTC (tc : TableColumn) : String := tc.table.name ++ "." ++ tc.column.name

/-- The sort key of an edge: the pair of stringified endpoints, sorted within
the edge (`tuple(sorted((stringify(first), stringify(second))))`). -/
def edgeKey (e : JoinEdge) : String × String :=
  let a := stringifyTC e.first
  let b := stringifyTC e.second
  if strLe a b then (a, b) else (b, a)

/-- Lexicographic comparison of edge keys. -/
def edgeLeB (e1 e2 : JoinEdge) : Bool :=
  let k1 := edgeKey e1
  let k2 := edgeKey e2
  strLt k1.1 k2.1 || (k1.1 == k2.1 && strLe k1.2 k2.2)

/-- `sort_join_edges` (`defio/sqlgen/utils.py`): deterministic ordering of a
set of join edges before sampling from it. -/
def sortJoinEdges (pool : List JoinEdge) : List JoinEdge :=
  List.insertionSort (fun e1 e2 => edgeLeB e1 e2 = true) pool

/-- Set-iteration-order oracle: Python set iteration order is unspecified, so
each materialization of a set is enumerated through an oracle function (one
per element type).  A run of the generator is parameterized by the oracle. -/
structure SetOracle where
  je : List JoinEdge → List JoinEdge
  tc : List TableColumn → List TableColumn
  ut : List UniqueTable → List UniqueTable

/-- The identity oracle (sets iterated in canonical order). -/
def idOracle : SetOracle := ⟨id, id, id⟩

/-- `JoinEdge.get_possible_join_edges(schema, table)`: the set comprehension
over `table.columns` (a list, deterministic order) and each column's
possible-joins set (enumerated via the oracle), deduplicated as a set. -/
def getPossibleJoinEdges (o : SetOracle) (schema : Schema) (t : Table) : List JoinEdge :=
  dedupEdges ((t.columns.map (fun c =>
    (o.tc (possibleJoins schema t c)).map
      (fun tc2 => JoinEdge.mk (TableColumn.mk t c) tc2))).flatten)

/-- RNG state (`Randomizer`, `defio/utils/random.py`): the numpy generator is
a deterministic function of its seed, modelled as a draw stream plus the next
draw index. -/
structure Rng where
  stream : Nat → Nat
  ctr : Nat

/-- One raw draw. -/
def Rng.draw (g : Rng) : Nat × Rng := (g.stream g.ctr, ⟨g.stream, g.ctr + 1⟩)

/-- `Randomizer.choose_one`: raises `ValueError` on an empty sequence, else
one uniform draw.  Optional weights shape only the distribution and are
absorbed by the draw stream. -/
def Rng.chooseOne (g : Rng) (arr : List α) : Option (α × Rng) :=
  if h : arr.length = 0 then none
  else
    let (d, g1) := g.draw
    some (arr.get ⟨d % arr.length, Nat.mod_lt _ (Nat.pos_of_ne_zero h)⟩, g1)

/-- `Randomizer.randint(n, inclusive=True)`: uniform over `[0, n]`. -/
def Rng.randintInclusive (g : Rng) (n : Nat) : Nat × Rng :=
  let (d, g1) := g.draw
  (d % (n + 1), g1)

/-- `Randomizer.randint(low, high, inclusive=True)`: uniform over
`[low, high]`; `ValueError` when the interval is empty. -/
def Rng.randintBetween (g : Rng) (low high : Nat) : Option (Nat × Rng) :=
  if high < low then none
  else
    let (d, g1) := g.draw
    some (low + d % (high - low + 1), g1)

/-- `Randomizer.flip(p)`: a biased coin; the bias only shapes the
distribution, so the draw stream decides the outcome. -/
def Rng.flip (g : Rng) : Bool × Rng :=
  let (d, g1) := g.draw
  (d % 2 == 1, g1)

/-- Draw `k` elements without replacement (`Randomizer.choose` core). -/
def chooseFromAux : Nat → List α → Rng → List α × Rng
  | 0, _, g => ([], g)
  | k + 1, arr, g =>
      if h : arr.length = 0 then ([], g)
      else
        let (d, g1) := g.draw
        let i : Fin arr.length := ⟨d % arr.length, Nat.mod_lt _ (Nat.pos_of_ne_zero h)⟩
        let (rest, g2) := chooseFromAux k (arr.eraseIdx i) g1
        (arr.get i :: rest, g2)

/-- `Randomizer.choose(arr, size=k, replace=False)`: `ValueError` when
`k < 1` or `k > len(arr)`. -/
def Rng.chooseMany (g : Rng) (arr : List α) (k : Nat) : Option (List α × Rng) :=
  if k < 1 then none
  else if arr.length < k then none
  else some (chooseFromAux k arr g)

/-- `JoinType` (`defio/sql/ast/from_clause.py`). -/
inductive JoinType where
  | innerJoin
  | leftOuterJoin
  | rightOuterJoin
  | fullOuterJoin
  | crossJoin
deriving Repr, DecidableEq

/-- `BinaryOperator` (`defio/sql/operator.py` is missing from `src/`; modelled
from the spec and the `htap` analog; `inOp` stands for `IN`). -/
inductive BinaryOperator where
  | lt
  | gt
  | leq
  | geq
  | eq
  | neq
  | inOp
  | like
  | between
  | notBetween
deriving Repr, DecidableEq

/-- `GenColumnReference` (`defio/sqlgen/ast/expression.py`). -/
structure GenColumnReference where
  uniqueTable : UniqueTable
  column : Column
deriving Repr, DecidableEq

/-- `JoinPredicate` (`defio/sqlgen/ast/from_clause.py`). -/
structure JoinPredicate where
  left : GenColumnReference
  operator : BinaryOperator
  right : GenColumnReference
deriving Repr, DecidableEq

/-- `GenFromClause` (`defio/sqlgen/ast/from_clause.py`): `GenAliasedTable`, or
a left-deep `GenJoin` whose right child is a `GenAliasedTable` (represented by
its `UniqueTable`). -/
inductive GenFromClause where
  | aliasedTable (uniqueTable : UniqueTable)
  | join (left : GenFromClause) (joinType : JoinType) (right : UniqueTable)
      (predicate : JoinPredicate)
deriving Repr, DecidableEq

/-- `GenFromClause.unique_tables`: the set of `UniqueTable`s of the clause
(`left.unique_tables | right.unique_tables`), as a canonical deduplicated
list; iterations of this set go through the oracle. -/
def GenFromClause.uniqueTables : GenFromClause → List UniqueTable
  | .aliasedTable ut => [ut]
  | .join l _ r _ => (l.uniqueTables ++ [r]).dedup

/-- Number of `GenJoin` nodes of a from-clause. -/
def GenFromClause.numJoins : GenFromClause → Nat
  | .aliasedTable _ => 0
  | .join l _ _ _ => l.numJoins + 1

/-- The join types of the `GenJoin` nodes of a from-clause. -/
def GenFromClause.joinTypesOf : GenFromClause → List JoinType
  | .aliasedTable _ => []
  | .join l jt _ _ => jt :: l.joinTypesOf

/-- `JoinSamplerConfig` (`defio/sqlgen/sampler/join.py`): `max_num_joins >= 0`
(hence a `Nat`), the permitted join types, optional per-type weights (they
shape only the RNG distribution, which the draw stream absorbs) and the
self-join switch. -/
structure JoinSamplerConfig where
  maxNumJoins : Nat
  joinTypes : List JoinType
  joinTypesWeights : Option (List PyFloat)
  withSelfJoin : Bool
deriving Repr

/-- The mutable state of one `sample_joins` call: the `join_tables` dict (in
insertion order), the `possible_join_edges` set (as a list in arbitrary
order), the joins built so far, the RNG and the `UniqueTable` allocation
counter. -/
structure JoinState where
  joinTables : List (Table × UniqueTable)
  pool : List JoinEdge
  joins : GenFromClause
  rng : Rng
  uidCtr : Nat

/-- `join_tables[t]` lookup. -/
def lookupJT (jts : List (Table × UniqueTable)) (t : Table) : Option UniqueTable :=
  (jts.find? (fun p => p.1 == t)).map (·.2)

/-- `possible_join_edges -= {join_edge}` (set difference up to `beq`). -/
def poolRemove (pool : List JoinEdge) (e : JoinEdge) : List JoinEdge :=
  pool.filter (fun x => !(JoinEdge.beq x e))

/-- `possible_join_edges |= new_edges` (set union; the new set was already
deduplicated, existing members win). -/
def poolUnion (pool newEdges : List JoinEdge) : List JoinEdge :=
  pool ++ newEdges.filter (fun e => !(edgeMem e pool))

/-- The common tail of one loop iteration of `JoinSampler.sample_joins`
(lines 143-160): remove the chosen edge from the pool, choose the join type
from `config.join_types` (per the configured weights), and extend the joins
with the new `GenJoin` (equijoin predicate `left_col = right_col`). -/
def finishJoin (cfg : JoinSamplerConfig) (st : JoinState) (edge : JoinEdge)
    (lut rut : UniqueTable) (lc rc : Column) : Option JoinState :=
  let pool1 := poolRemove st.pool edge
  match st.rng.chooseOne cfg.joinTypes with
  | none => none
  | some (jt, rng1) =>
      some { st with
        pool := pool1
        rng := rng1
        joins := .join st.joins jt rut
          (JoinPredicate.mk (GenColumnReference.mk lut lc) .eq
            (GenColumnReference.mk rut rc)) }

/-- One loop iteration of `JoinSampler.sample_joins` (lines 99-160) after the
chosen edge is known: classify the edge against `join_tables`, possibly skip
(`continue`) a self-join, extend `join_tables`/the pool for a new endpoint,
then `finishJoin`.  `none` models the `RuntimeError` of the impossible
both-endpoints-new case and the `ValueError` of an empty `join_types`. -/
def sampleJoinsIter (cfg : JoinSamplerConfig) (o : SetOracle) (schema : Schema)
    (edge : JoinEdge) (st : JoinState) : Option JoinState :=
  let ft := edge.first.table
  let fc := edge.first.column
  let sdt := edge.second.table
  let sc := edge.second.column
  match lookupJT st.joinTables ft, lookupJT st.joinTables sdt with
  | some lut, some sut =>
      if ft == sdt then
        if !cfg.withSelfJoin then
          some st
        else
          let rut := UniqueTable.mk sdt st.uidCtr
          finishJoin cfg { st with uidCtr := st.uidCtr + 1 } edge lut rut fc sc
      else
        finishJoin cfg st edge lut sut fc sc
  | some lut, none =>
      let rut := UniqueTable.mk sdt st.uidCtr
      let st1 := { st with
        uidCtr := st.uidCtr + 1
        joinTables := st.joinTables ++ [(sdt, rut)]
        pool := poolUnion st.pool (getPossibleJoinEdges o schema sdt) }
      finishJoin cfg st1 edge lut rut fc sc
  | none, some sut =>
      let rut := UniqueTable.mk ft st.uidCtr
      let st1 := { st with
        uidCtr := st.uidCtr + 1
        joinTables := st.joinTables ++ [(ft, rut)]
        pool := poolUnion st.pool (getPossibleJoinEdges o schema ft) }
      finishJoin cfg st1 edge sut rut sc fc
  | none, none => none

/-- The `for _ in range(num_joins)` loop of `sample_joins` (lines 92-160):
break early on an empty pool, choose an edge uniformly from the
deterministically sorted pool, run one iteration. -/
def sampleJoinsLoop (cfg : JoinSamplerConfig) (o : SetOracle) (schema : Schema) :
    Nat → JoinState → Option JoinState
  | 0, st => some st
  | k + 1, st =>
      if st.pool.length = 0 then some st
      else
        match st.rng.chooseOne (sortJoinEdges st.pool) with
        | none => none
        | some (edge, rng1) =>
            match sampleJoinsIter cfg o schema edge { st with rng := rng1 } with
            | none => none
            | some st1 => sampleJoinsLoop cfg o schema k st1

/-- `JoinSampler.sample_joins` (lines 74-162): start from a uniformly random
table wrapped in a fresh `UniqueTable`, seed the candidate pool with its
possible join edges, draw `num_joins ∈ [0, max_num_joins]`, and run the loop.
Returns the from-clause plus the advanced RNG and allocation counter. -/
def sampleJoins (cfg : JoinSamplerConfig) (o : SetOracle) (schema : Schema)
    (rng : Rng) (uidCtr : Nat) : Option (GenFromClause × Rng × Nat) :=
  match rng.chooseOne schema.tables with
  | none => none
  | some tr =>
      let t0 := tr.1
      let ut0 := UniqueTable.mk t0 uidCtr
      let nj := tr.2.randintInclusive cfg.maxNumJoins
      let st0 : JoinState :=
        ⟨[(t0, ut0)], getPossibleJoinEdges o schema t0, .aliasedTable ut0, nj.2, uidCtr + 1⟩
      match sampleJoinsLoop cfg o schema nj.1 st0 with
      | none => none
      | some st => some (st.joins, st.rng, st.uidCtr)

/-- A single-quote character, used by Python string reprs and SQL literals. -/
def squote : String := (Char.ofNat 39).toString

/-- Python `repr` of a plain string (no escaping needed for the names in
play). -/
def pyStrRepr (s : String) : String := squote ++ s ++ squote

/-- Python `repr` of a bool. -/
def pyBoolRepr (b : Bool) : String := if b then "True" else "False"

/-- `repr` of the modelled `DataType` members (spec-modelled, like the class
itself; only the overall shape of the wrapper repr matters to the claims). -/
def DataType.reprPy : DataType → String
  | .integer => "DataType.INTEGER"
  | .float => "DataType.FLOAT"
  | .string => "DataType.STRING"
  | .boolean => "DataType.BOOLEAN"

/-- attrs-style `repr` of the modelled `ColumnConstraint`. -/
def ColumnConstraint.reprPy (k : ColumnConstraint) : String :=
  "ColumnConstraint(is_primary_key=" ++ pyBoolRepr k.isPrimaryKey ++
    ", is_foreign_key=" ++ pyBoolRepr k.isForeignKey ++
    ", is_unique=" ++ pyBoolRepr k.isUnique ++
    ", is_not_null=" ++ pyBoolRepr k.isNotNull ++
    ", max_char_length=" ++
    (match k.maxCharLength with
     | none => "None"
     | some n => toString n) ++ ")"

/-- attrs-style `repr` of the modelled `Column`. -/
def Column.reprPy (c : Column) : String :=
  "Column(name=" ++ pyStrRepr c.name ++ ", dtype=" ++ c.dtype.reprPy ++
    ", constraint=" ++ c.constraint.reprPy ++ ")"

/-- Python tuple `repr` (singleton tuples carry a trailing comma). -/
def pyTupleRepr (parts : List String) : String :=
  match parts with
  | [p] => "(" ++ p ++ ",)"
  | _ => "(" ++ String.intercalate ", " parts ++ ")"

/-- attrs-style `repr` of the modelled `Table`. -/
def Table.reprPy (t : Table) : String :=
  "Table(name=" ++ pyStrRepr t.name ++ ", columns=" ++
    pyTupleRepr (t.columns.map Column.reprPy) ++ ")"

/-- `str(unique_table)`: `UniqueTable` (in `src/`) defines no `__str__`, so
`str` falls back to the attrs-generated `__repr__`,
`UniqueTable(table=<table repr>)`.  (The nested table repr comes from the
missing schema module and is modelled above; only the fact that the rendering
is the wrapper's repr — not the bare table name — matters.) -/
def UniqueTable.strPy (ut : UniqueTable) : String :=
  "UniqueTable(table=" ++ ut.table.reprPy ++ ")"

/-- Keep-first deduplication for the grouping dict's key order. -/
def dedupTablesAux (seen : List Table) : List Table → List Table
  | [] => []
  | t :: rest =>
      if seen.any (fun x => x == t) then dedupTablesAux seen rest
      else t :: dedupTablesAux (t :: seen) rest

def dedupTablesKeepFirst (l : List Table) : List Table := dedupTablesAux [] l

/-- `GenFromClause.generate_table_aliases`
(`defio/sqlgen/ast/from_clause.py` lines 36-52): group the plan's unique
tables by base table (`table_groups` dict, keyed in first-occurrence order of
the set iteration), and give every group of size > 1 the aliases
`f"{unique_table}_{i+1}"` over the group sorted by
`(table.name, id(unique_table))`.  NOTE: the f-string formats the
`UniqueTable` object itself (attrs repr), not the underlying table's name. -/
def generateTableAliases (o : SetOracle) (fc : GenFromClause) :
    List (UniqueTable × String) :=
  let uts := o.ut fc.uniqueTables
  ((dedupTablesKeepFirst (uts.map (·.table))).map (fun t =>
    let group := uts.filter (fun ut => ut.table == t)
    if group.length > 1 then
      (sortUniqueTables group).mapIdx
        (fun i ut => (ut, ut.strPy ++ "_" ++ toString (i + 1)))
    else [])).flatten

/-- `table_aliases.get(unique_table)` / `unique_table in table_aliases`. -/
def aliasLookup (m : List (UniqueTable × String)) (ut : UniqueTable) : Option String :=
  (m.find? (fun p => p.1 == ut)).map (·.2)

/-- `FunctionName` (`defio/sql/ast/expression.py`). -/
inductive FunctionName where
  | count
  | minF
  | maxF
  | sumF
  | avgF
deriving Repr, DecidableEq

/-- `FunctionName.upper()` of the StrEnum value. -/
def FunctionName.upper : FunctionName → String
  | .count => "COUNT"
  | .minF => "MIN"
  | .maxF => "MAX"
  | .sumF => "SUM"
  | .avgF => "AVG"

/-- `UnaryOperator` (modelled with `BinaryOperator` from the missing
`defio/sql/operator.py`). -/
inductive UnaryOperator where
  | isNull
  | isNotNull
  | unaryPlus
  | negation
deriving Repr, DecidableEq

/-- `LogicalOperator`. -/
inductive LogicalOperator where
  | andOp
  | orOp
  | notOp
deriving Repr, DecidableEq

def LogicalOperator.strPy : LogicalOperator → String
  | .andOp => "AND"
  | .orOp => "OR"
  | .notOp => "NOT"

/-- `BinaryOperator.canonical_symbol` (first symbol of each member). -/
def BinaryOperator.canonicalSymbol : BinaryOperator → String
  | .lt => "<"
  | .gt => ">"
  | .leq => "<="
  | .geq => ">="
  | .eq => "="
  | .neq => "<>"
  | .inOp => "IN"
  | .like => "LIKE"
  | .between => "BETWEEN"
  | .notBetween => "NOT BETWEEN"

def JoinType.strPy : JoinType → String
  | .innerJoin => "JOIN"
  | .leftOuterJoin => "LEFT OUTER JOIN"
  | .rightOuterJoin => "RIGHT OUTER JOIN"
  | .fullOuterJoin => "FULL OUTER JOIN"
  | .crossJoin => "CROSS JOIN"

/-- Constant values (`ConstantType = int | float | str | bool`). -/
inductive ConstVal where
  | int (n : Int)
  | float (f : PyFloat)
  | str (s : String)
  | bool (b : Bool)
deriving Repr, DecidableEq

def PyVal.toConst : PyVal → ConstVal
  | .int n => .int n
  | .str s => .str s
  | .bool b => .bool b

/-- `GenExpression` (`defio/sqlgen/ast/expression.py`); the
single-expression and sequence forms of `GenBinaryExpression.right` are
separate constructors. -/
inductive GenExpression where
  | unary (op : UnaryOperator) (operand : GenExpression)
  | colRef (r : GenColumnReference)
  | const (v : ConstVal)
  | binarySingle (left : GenExpression) (op : BinaryOperator) (right : GenExpression)
  | binarySeq (left : GenExpression) (op : BinaryOperator) (right : List GenExpression)
  | funcCall (funcName : FunctionName) (aggStar : Bool) (args : Option (List GenExpression))

/-- `GenWhereClause` (`defio/sqlgen/ast/where_clause.py`). -/
inductive GenWhereClause where
  | simple (e : GenExpression)
  | compound (op : LogicalOperator) (children : List GenWhereClause)

/-- `GenSimplePredicate.make_binary_column_predicate`: the right-hand side is
one constant or a sequence of constants. -/
def makeBinaryColumnPredicate (left : GenColumnReference) (op : BinaryOperator) :
    ConstVal ⊕ List ConstVal → GenWhereClause
  | .inl v => .simple (.binarySingle (.colRef left) op (.const v))
  | .inr vs => .simple (.binarySeq (.colRef left) op (vs.map GenExpression.const))

/-- `GenCompoundPredicate.make_not`. -/
def makeNot (p : GenWhereClause) : GenWhereClause := .compound .notOp [p]

/-- `GenCompoundPredicate.make_and`. -/
def makeAnd (ps : List GenWhereClause) : GenWhereClause := .compound .andOp ps

/-- Comparison used by `sorted` over categorical values (homogeneous per
column in practice; a constructor rank orders the unreachable mixed case). -/
def PyVal.leB : PyVal → PyVal → Bool
  | .bool a, .bool b => !a || b
  | .bool _, _ => true
  | .int _, .bool _ => false
  | .int m, .int n => m ≤ n
  | .int _, .str _ => true
  | .str a, .str b => strLe a b
  | .str _, _ => false

def sortedPyVals (vs : List PyVal) : List PyVal :=
  List.insertionSort (fun a b => PyVal.leB a b = true) vs

def sortedStrings (ws : List String) : List String :=
  List.insertionSort (fun a b => strLe a b = true) ws

/-- `PredicateSamplerConfig` (`defio/sqlgen/sampler/predicate.py`):
`max_num_predicates >= 0`; the probabilities shape only RNG draws. -/
structure PredicateSamplerConfig where
  maxNumPredicates : Nat
  pDropPointQuery : PyFloat
  pNot : PyFloat
deriving Repr

/-- `_sample_categorical_predicate`: operators `=`, `!=`, `IN`; `IN` picks
1..N most-frequent values.  Inner `none` = no predicate; outer `none` = an
exception. -/
def sampleCategoricalPredicate (ref : GenColumnReference) (mfv : List PyVal)
    (rng : Rng) : Option (Option GenWhereClause × Rng) :=
  let mostFrequentValues := sortedPyVals mfv
  if mostFrequentValues.length = 0 then some (none, rng)
  else
    match rng.chooseOne [BinaryOperator.eq, BinaryOperator.neq, BinaryOperator.inOp] with
    | none => none
    | some (op, rng1) =>
        if op = BinaryOperator.inOp then
          match rng1.randintBetween 1 mostFrequentValues.length with
          | none => none
          | some (k, rng2) =>
              match rng2.chooseMany mostFrequentValues k with
              | none => none
              | some (vals, rng3) =>
                  some (some (makeBinaryColumnPredicate ref .inOp
                    (.inr (vals.map PyVal.toConst))), rng3)
        else
          match rng1.chooseOne mostFrequentValues with
          | none => none
          | some (v, rng2) =>
              some (some (makeBinaryColumnPredicate ref op (.inl v.toConst)), rng2)

/-- `_sample_key_predicate`: with probability `p_drop_point_query` no
predicate, else a point equality against a sampled value. -/
def sampleKeyPredicate (ref : GenColumnReference) (sampledValues : List PyVal)
    (rng : Rng) : Option (Option GenWhereClause × Rng) :=
  if sampledValues.length = 0 then some (none, rng)
  else
    let (drop, rng1) := rng.flip
    if drop then some (none, rng1)
    else
      match rng1.chooseOne sampledValues with
      | none => none
      | some (v, rng2) =>
          some (some (makeBinaryColumnPredicate ref .eq (.inl v.toConst)), rng2)

/-- `_sample_numerical_predicate`: no predicate when the mean is NaN; else an
operator from `[<, <=, <, <=, BETWEEN, NOT BETWEEN]` with one or two sampled
percentiles. -/
def sampleNumericalPredicate (ref : GenColumnReference) (mean : PyFloat)
    (percentiles : List PyFloat) (rng : Rng) : Option (Option GenWhereClause × Rng) :=
  if mean.isNan then some (none, rng)
  else
    match rng.chooseOne [BinaryOperator.lt, BinaryOperator.leq, BinaryOperator.lt,
        BinaryOperator.leq, BinaryOperator.between, BinaryOperator.notBetween] with
    | none => none
    | some (op, rng1) =>
        if op = BinaryOperator.between ∨ op = BinaryOperator.notBetween then
          match rng1.chooseMany percentiles 2 with
          | none => none
          | some (vs, rng2) =>
              some (some (makeBinaryColumnPredicate ref op
                (.inr (vs.map ConstVal.float))), rng2)
        else
          match rng1.chooseOne percentiles with
          | none => none
          | some (v, rng2) =>
              some (some (makeBinaryColumnPredicate ref op (.inl (.float v))), rng2)

/-- `_sample_raw_string_predicate`: `LIKE` on a frequent word. -/
def sampleRawStringPredicate (ref : GenColumnReference) (words : List String)
    (rng : Rng) : Option (Option GenWhereClause × Rng) :=
  let frequentWords := sortedStrings words
  if frequentWords.length = 0 then some (none, rng)
  else
    match rng.chooseOne frequentWords with
    | none => none
    | some (w, rng1) =>
        some (some (makeBinaryColumnPredicate ref .like
          (.inl (.str ("%" ++ w ++ "%")))), rng1)

/-- `_sample_predicate`: look up the column's stats and dispatch on
`(DataType, ColumnStats variant)`; a missing entry or a variant that is
illegal for the data type raises (`assert_never`). -/
def samplePredicateFor (stats : DataStats) (ref : GenColumnReference)
    (rng : Rng) : Option (Option GenWhereClause × Rng) :=
  match statsGet stats ref.uniqueTable.table ref.column with
  | none => none
  | some cstats =>
      match ref.column.dtype, cstats with
      | .integer, .categorical mfv => sampleCategoricalPredicate ref mfv rng
      | .integer, .key vs => sampleKeyPredicate ref vs rng
      | .integer, .numerical mean ps => sampleNumericalPredicate ref mean ps rng
      | .integer, .rawString _ => none
      | .float, .numerical mean ps => sampleNumericalPredicate ref mean ps rng
      | .float, _ => none
      | .string, .categorical mfv => sampleCategoricalPredicate ref mfv rng
      | .string, .key vs => sampleKeyPredicate ref vs rng
      | .string, .rawString ws => sampleRawStringPredicate ref ws rng
      | .string, .numerical _ _ => none
      | .boolean, .categorical mfv => sampleCategoricalPredicate ref mfv rng
      | .boolean, _ => none

/-- The predicate list comprehension of `sample_predicates` (lines 109-118):
for each sampled column ref, sample a predicate (dropping `None`s), then
negate it with probability `p_not`. -/
def samplePredList (stats : DataStats) :
    List GenColumnReference → Rng → Option (List GenWhereClause × Rng)
  | [], rng => some ([], rng)
  | ref :: rest, rng =>
      match samplePredicateFor stats ref rng with
      | none => none
      | some (none, rng1) => samplePredList stats rest rng1
      | some (some pred, rng1) =>
          let (neg, rng2) := rng1.flip
          let pred1 := if neg then makeNot pred else pred
          match samplePredList stats rest rng2 with
          | none => none
          | some (ps, rng3) => some (pred1 :: ps, rng3)

/-- The column refs of a plan, over the sorted unique-table sequence. -/
def possibleColumnRefs (o : SetOracle) (joins : GenFromClause) :
    List GenColumnReference :=
  ((sortUniqueTables (o.ut joins.uniqueTables)).map (fun ut =>
    ut.table.columns.map (fun c => GenColumnReference.mk ut c))).flatten

/-- `PredicateSampler.sample_predicates` (lines 69-127): draw
`num_predicates ∈ [0, min(len(candidates), max_num_predicates)]`, sample that
many column refs without replacement (weighted per table width — absorbed by
the draw stream), build predicates, and combine with `AND`. -/
def samplePredicates (cfg : PredicateSamplerConfig) (o : SetOracle)
    (stats : DataStats) (joins : GenFromClause) (rng : Rng) :
    Option (Option GenWhereClause × Rng) :=
  let refs := possibleColumnRefs o joins
  let (numPredicates, rng1) := rng.randintInclusive (min refs.length cfg.maxNumPredicates)
  if numPredicates = 0 then some (none, rng1)
  else
    match rng1.chooseMany refs numPredicates with
    | none => none
    | some (sampledRefs, rng2) =>
        match samplePredList stats sampledRefs rng2 with
        | none => none
        | some ([], rng3) => some (none, rng3)
        | some ([p], rng3) => some (some p, rng3)
        | some (ps, rng3) => some (some (makeAnd ps), rng3)

/-- `AggregateSamplerConfig` (`defio/sqlgen/sampler/aggregate.py`):
`max_num_aggregates >= 1`; the probabilities shape only RNG draws. -/
structure AggregateSamplerConfig where
  maxNumAggregates : Nat
  pCountStar : PyFloat
  pCountDistinct : PyFloat
deriving Repr

/-- `AggregateSampler._sample_aggregate` (lines 84-103): STRING/BOOLEAN/PK/FK
columns admit only `COUNT`, other columns any aggregate.  For `COUNT`, the
code calls `GenFunctionCall(func_name=COUNT, agg_distinct=..., args=...)` —
but `GenFunctionCall` (`defio/sqlgen/ast/expression.py`) has NO
`agg_distinct` field, so the attrs `__init__` raises `TypeError` (the
`flip(p_count_distinct)` argument is evaluated first). -/
def sampleAggregate (ref : GenColumnReference) (rng : Rng) :
    Option (GenExpression × Rng) :=
  let allowed :=
    if ref.column.dtype = DataType.string ∨ ref.column.dtype = DataType.boolean ∨
        ref.column.constraint.isPrimaryKey ∨ ref.column.constraint.isForeignKey then
      [FunctionName.count]
    else
      [FunctionName.count, FunctionName.minF, FunctionName.maxF,
        FunctionName.sumF, FunctionName.avgF]
  match rng.chooseOne allowed with
  | none => none
  | some (fn, rng1) =>
      if fn = FunctionName.count then
        let (_, _) := rng1.flip
        none
      else
        some (.funcCall fn false (some [.colRef ref]), rng1)

/-- The aggregate list comprehension of `sample_aggregates` (lines 78-82). -/
def sampleAggList : List GenColumnReference → Rng → Option (List GenExpression × Rng)
  | [], rng => some ([], rng)
  | ref :: rest, rng =>
      match sampleAggregate ref rng with
      | none => none
      | some (e, rng1) =>
          match sampleAggList rest rng1 with
          | none => none
          | some (es, rng2) => some (e :: es, rng2)

/-- `AggregateSampler.sample_aggregates` (lines 50-82): `COUNT(*)` with
probability `p_count_star`, else
`num_aggregates ∈ [1, min(len(candidates), max_num_aggregates)]` sampled
aggregates (an empty candidate interval raises `ValueError`). -/
def sampleAggregates (cfg : AggregateSamplerConfig) (o : SetOracle)
    (joins : GenFromClause) (rng : Rng) : Option (List GenExpression × Rng) :=
  let (star, rng1) := rng.flip
  if star then some ([.funcCall .count true none], rng1)
  else
    let refs := possibleColumnRefs o joins
    match rng1.randintBetween 1 (min refs.length cfg.maxNumAggregates) with
    | none => none
    | some (k, rng2) =>
        match rng2.chooseMany refs k with
        | none => none
        | some (sampledRefs, rng3) => sampleAggList sampledRefs rng3

/-- `Expression` of the plain SQL AST (`defio/sql/ast/expression.py`). -/
inductive Expression where
  | unary (op : UnaryOperator) (operand : Expression)
  | binarySingle (left : Expression) (op : BinaryOperator) (right : Expression)
  | binarySeq (left : Expression) (op : BinaryOperator) (right : List Expression)
  | columnReference (tableAlias : Option String) (columnName : String)
  | constant (v : ConstVal)
  | functionCall (funcName : FunctionName) (aggStar : Bool) (args : Option (List Expression))

/-- `WhereClause` of the plain SQL AST (`defio/sql/ast/where_clause.py`). -/
inductive WhereClause where
  | simple (e : Expression)
  | compound (op : LogicalOperator) (children : List WhereClause)

/-- `FromClause` of the plain SQL AST (`defio/sql/ast/from_clause.py`). -/
inductive FromClause where
  | aliasedTable (name : String) (aliasName : Option String)
  | join (left : FromClause) (joinType : JoinType) (right : FromClause)
      (predicate : Option Expression)

/-- `SelectStatement` (`defio/sql/ast/statement.py` is missing from `src/`;
modelled from the spec §4/§3 and the `htap` analog: a target list, a
from-clause and an optional where-clause). -/
structure SelectStatement where
  targetList : List Expression
  fromClause : FromClause
  whereClause : Option WhereClause

/-- `GenColumnReference.to_sql`: the column is qualified by its alias when one
was generated, else by the table name. -/
def GenColumnReference.toSql (aliases : List (UniqueTable × String))
    (r : GenColumnReference) : Expression :=
  .columnReference
    (some ((aliasLookup aliases r.uniqueTable).getD r.uniqueTable.table.name))
    r.column.name

mutual

/-- `GenExpression.to_sql`. -/
def GenExpression.toSql (aliases : List (UniqueTable × String)) :
    GenExpression → Expression
  | .unary op e => .unary op (e.toSql aliases)
  | .colRef r => r.toSql aliases
  | .const v => .constant v
  | .binarySingle l op r => .binarySingle (l.toSql aliases) op (r.toSql aliases)
  | .binarySeq l op rs => .binarySeq (l.toSql aliases) op (GenExpression.toSqlList aliases rs)
  | .funcCall fn _ args =>
      match args with
      | none => .functionCall fn true none
      | some es => .functionCall fn false (some (GenExpression.toSqlList aliases es))

def GenExpression.toSqlList (aliases : List (UniqueTable × String)) :
    List GenExpression → List Expression
  | [] => []
  | e :: es => e.toSql aliases :: GenExpression.toSqlList aliases es

end

mutual

/-- `GenWhereClause.to_sql`. -/
def GenWhereClause.toSql (aliases : List (UniqueTable × String)) :
    GenWhereClause → WhereClause
  | .simple e => .simple (e.toSql aliases)
  | .compound op cs => .compound op (GenWhereClause.toSqlList aliases cs)

def GenWhereClause.toSqlList (aliases : List (UniqueTable × String)) :
    List GenWhereClause → List WhereClause
  | [] => []
  | c :: cs => c.toSql aliases :: GenWhereClause.toSqlList aliases cs

end

/-- `GenFromClause.to_sql` (with the aliases generated once at the statement
level): a `GenAliasedTable` keeps its alias only if one was generated; a
`GenJoin` re-wraps its predicate as a `BinaryExpression`. -/
def GenFromClause.toSql (aliases : List (UniqueTable × String)) :
    GenFromClause → FromClause
  | .aliasedTable ut => .aliasedTable ut.table.name (aliasLookup aliases ut)
  | .join l jt r pred =>
      .join (l.toSql aliases) jt (.aliasedTable r.table.name (aliasLookup aliases r))
        (some (.binarySingle (pred.left.toSql aliases) pred.operator
          (pred.right.toSql aliases)))

/-- `GenSelectStatement.to_sql`: generate the table aliases once, then convert
the three clauses. -/
def genSelectToSql (o : SetOracle) (targets : List GenExpression)
    (fromClause : GenFromClause) (whereClause : Option GenWhereClause) :
    SelectStatement :=
  let aliases := generateTableAliases o fromClause
  ⟨GenExpression.toSqlList aliases targets,
    fromClause.toSql aliases,
    whereClause.map (GenWhereClause.toSql aliases)⟩

/-- `Constant.__str__`: ints and bools via `str` (a Python bool formats as
`True`/`False`), floats via `str(float)`, strings single-quoted. -/
def ConstVal.strPy : ConstVal → String
  | .int n => toString n
  | .float f => f.rep
  | .str s => squote ++ s ++ squote
  | .bool b => if b then "True" else "False"

mutual

/-- `Expression.__str__` of each variant (`defio/sql/ast/expression.py`). -/
def Expression.strPy : Expression → String
  | .unary op e =>
      match op with
      | .isNull => e.strPy ++ " IS NULL"
      | .isNotNull => e.strPy ++ " IS NOT NULL"
      | .unaryPlus => "+" ++ e.strPy
      | .negation => "-" ++ e.strPy
  | .binarySingle l op r =>
      l.strPy ++ " " ++ op.canonicalSymbol ++ " " ++ r.strPy
  | .binarySeq l op rs =>
      let parts := Expression.strPyList rs
      let rightStr :=
        match op, parts with
        | .between, [a, b] => a ++ " AND " ++ b
        | .notBetween, [a, b] => a ++ " AND " ++ b
        | _, _ => "(" ++ String.intercalate ", " parts ++ ")"
      l.strPy ++ " " ++ op.canonicalSymbol ++ " " ++ rightStr
  | .columnReference al c =>
      match al with
      | some a => a ++ "." ++ c
      | none => c
  | .constant v => v.strPy
  | .functionCall fn _ args =>
      match args with
      | none => fn.upper ++ "(*)"
      | some es => fn.upper ++ "(" ++ String.intercalate ", " (Expression.strPyList es) ++ ")"

def Expression.strPyList : List Expression → List String
  | [] => []
  | e :: es => e.strPy :: Expression.strPyList es

end

mutual

/-- `WhereClause.__str__`: simple predicates render bare; AND/OR children are
parenthesized when compound; NOT prefixes its single child. -/
def WhereClause.strPy : WhereClause → String
  | .simple e => e.strPy
  | .compound op cs =>
      match op with
      | .notOp =>
          "NOT " ++ String.intercalate " " (WhereClause.strPyList cs)
      | _ => String.intercalate (" " ++ op.strPy ++ " ") (WhereClause.parenthesizeList cs)

def WhereClause.strPyList : List WhereClause → List String
  | [] => []
  | c :: cs => WhereClause.strPy c :: WhereClause.strPyList cs

def WhereClause.parenthesizeList : List WhereClause → List String
  | [] => []
  | .simple e :: cs => Expression.strPy e :: WhereClause.parenthesizeList cs
  | .compound op2 cs2 :: cs =>
      ("(" ++ WhereClause.strPy (.compound op2 cs2) ++ ")") ::
        WhereClause.parenthesizeList cs

end

/-- `AliasedTable.__str__` / `Join.__str__`. -/
def FromClause.strPy : FromClause → String
  | .aliasedTable n al =>
      match al with
      | some a => n ++ " AS " ++ a
      | none => n
  | .join l jt r pred =>
      match jt with
      | .crossJoin => l.strPy ++ ", " ++ r.strPy
      | _ =>
          l.strPy ++ " " ++ jt.strPy ++ " " ++ r.strPy ++ " ON " ++
            (match pred with
             | some p => p.strPy
             | none => "")

/-- `SelectStatement.__str__` (spec-modelled with the statement module):
`SELECT <targets> FROM <from> [WHERE <where>];`. -/
def SelectStatement.strPy (s : SelectStatement) : String :=
  "SELECT " ++ String.intercalate ", " (Expression.strPyList s.targetList) ++
    " FROM " ++ s.fromClause.strPy ++
    (match s.whereClause with
     | some w => " WHERE " ++ w.strPy
     | none => "") ++ ";"

/-- One query of `RandomSqlGenerator.__iter__` (lines 83-92): sample the
joins, predicates and aggregates (each sampler with its own RNG), build the
`GenSelectStatement` and render it. -/
def generateOne (jc : JoinSamplerConfig) (pc : PredicateSamplerConfig)
    (ac : AggregateSamplerConfig) (o : SetOracle) (schema : Schema)
    (stats : DataStats) (rngJ rngP rngA : Rng) (uidCtr : Nat) :
    Option (String × Rng × Rng × Rng × Nat) :=
  match sampleJoins jc o schema rngJ uidCtr with
  | none => none
  | some (joins, rngJ1, uid1) =>
      match samplePredicates pc o stats joins rngP with
      | none => none
      | some (predicates, rngP1) =>
          match sampleAggregates ac o joins rngA with
          | none => none
          | some (aggregates, rngA1) =>
              some ((genSelectToSql o aggregates joins predicates).strPy,
                rngJ1, rngP1, rngA1, uid1)

/-- `RandomSqlGenerator.__iter__`: each iteration constructs the three
samplers afresh from the one stored integer seed (`stream` is the numpy draw
stream determined by that seed), then yields `num_queries` SQL strings.
Returns the strings yielded before any exception, plus whether the iteration
raised. -/
def runGenerator (jc : JoinSamplerConfig) (pc : PredicateSamplerConfig)
    (ac : AggregateSamplerConfig) (o : SetOracle) (schema : Schema)
    (stats : DataStats) (stream : Nat → Nat) : Nat → List String × Bool :=
  go ⟨stream, 0⟩ ⟨stream, 0⟩ ⟨stream, 0⟩ 0
where
  go (rngJ rngP rngA : Rng) (uidCtr : Nat) : Nat → List String × Bool
    | 0 => ([], false)
    | k + 1 =>
        match generateOne jc pc ac o schema stats rngJ rngP rngA uidCtr with
        | none => ([], true)
        | some (s, rngJ1, rngP1, rngA1, uid1) =>
            let out := go rngJ1 rngP1 rngA1 uid1 k
            (s :: out.1, out.2)

/-! ### Concrete fixtures for the sqlgen theorems -/

/-- An integer primary-key column. -/
def exColId : Column := ⟨"id", .integer, ⟨true, false, false, false, none⟩⟩

/-- An integer foreign-key column. -/
def exColRef : Column := ⟨"rid", .integer, ⟨false, true, false, false, none⟩⟩

/-- Table `a(id, rid)` with a self foreign key `a.rid -> a.id`. -/
def exTableA : Table := ⟨"a", [exColId, exColRef]⟩

/-- Table `b(id)`. -/
def exTableB : Table := ⟨"b", [exColId]⟩

/-- Schema with the self-FK `a.rid -> a.id` and the FK `a.rid -> b.id`. -/
def exSchemaAB : Schema :=
  ⟨[exTableA, exTableB],
    [(⟨exTableA, exColRef⟩, ⟨exTableA, exColId⟩),
     (⟨exTableA, exColRef⟩, ⟨exTableB, exColId⟩)]⟩

/-- The self-edge on table `a`. -/
def exEdgeAA : JoinEdge := ⟨⟨exTableA, exColRef⟩, ⟨exTableA, exColId⟩⟩

/-- The edge between tables `a` and `b`. -/
def exEdgeAB : JoinEdge := ⟨⟨exTableA, exColRef⟩, ⟨exTableB, exColId⟩⟩

def exUtA : UniqueTable := ⟨exTableA, 0⟩

def exUtB : UniqueTable := ⟨exTableB, 1⟩

/-- A config forbidding self-joins. -/
def exCfgNoSelf : JoinSamplerConfig := ⟨3, [.innerJoin], none, false⟩

/-- Sampler state with only table `a` in the plan and the self-edge as the
only candidate. -/
def exStateA : JoinState :=
  ⟨[(exTableA, exUtA)], [exEdgeAA], .aliasedTable exUtA, ⟨fun _ => 0, 0⟩, 1⟩

/-- Sampler state with tables `a` and `b` both already joined and the `a`-`b`
edge still in the pool. -/
def exStateAB : JoinState :=
  ⟨[(exTableA, exUtA), (exTableB, exUtB)], [exEdgeAB],
    .join (.aliasedTable exUtA) .innerJoin exUtB
      ⟨⟨exUtA, exColRef⟩, .eq, ⟨exUtB, exColId⟩⟩,
    ⟨fun _ => 0, 0⟩, 2⟩

/-- The state after choosing the still-pooled `a`-`b` edge from `exStateAB`:
a second join between the two existing unique tables is emitted (despite
`with_self_join = false`) and the edge leaves the pool. -/
def exStateABAfter : JoinState :=
  ⟨[(exTableA, exUtA), (exTableB, exUtB)], [],
    .join
      (.join (.aliasedTable exUtA) .innerJoin exUtB
        ⟨⟨exUtA, exColRef⟩, .eq, ⟨exUtB, exColId⟩⟩)
      .innerJoin exUtB ⟨⟨exUtA, exColRef⟩, .eq, ⟨exUtB, exColId⟩⟩,
    ⟨fun _ => 0, 1⟩, 2⟩

/-- Plan with two occurrences of the same table `t` (for the alias claim). -/
def exTableT : Table := ⟨"t", [exColId]⟩

def exUtT0 : UniqueTable := ⟨exTableT, 0⟩

def exUtT1 : UniqueTable := ⟨exTableT, 1⟩

def exFcTT : GenFromClause :=
  .join (.aliasedTable exUtT0) .innerJoin exUtT1
    ⟨⟨exUtT0, exColId⟩, .eq, ⟨exUtT1, exColId⟩⟩

/-- One-table schema/stats and configs for the generator evaluation. -/
def exSchemaP : Schema := ⟨[⟨"p", [exColId]⟩], []⟩

def exStatsP : DataStats := [(⟨"p", [exColId]⟩, [(exColId, .key [.int 1])])]

def exHalf : PyFloat := ⟨false, "0.5"⟩

def exJc : JoinSamplerConfig := ⟨0, [.innerJoin], none, false⟩

def exPc : PredicateSamplerConfig := ⟨0, exHalf, exHalf⟩

def exAc : AggregateSamplerConfig := ⟨1, exHalf, exHalf⟩

end SqlGen

end Defio

/-! # Theorems -/

namespace Defio.Schedule

/-- C4 helper: `Int.fmod` agrees with `%` (`Int.emod`) for a positive divisor. -/
theorem fmod_eq_emod_of_pos (a : Int) {b : Int} (hb : 0 < b) :
    Int.fmod a b = a % b := by
  rw [Int.fmod_eq_emod _ (le_of_lt hb)]

/-- C4: for every `Repeat` schedule (with positive interval and
`start_time <= end_time`, as established at construction) and every current
time `t`, `time_until_next` returns `start - t` before the start, `end - t`
after the end, and otherwise
`min ((interval - ((t - start) % interval)) % interval) (end - t)`. -/
theorem repeat_time_until_next_spec (s : RepeatSched) (t : Int)
    (hvalid : s.startTime ≤ s.endTime) (hpos : 0 < s.interval) :
    s.timeUntilNext t =
      if t < s.startTime then s.startTime - t
      else if s.endTime < t then s.endTime - t
      else
        min ((s.interval - ((t - s.startTime) % s.interval)) % s.interval)
          (s.endTime - t) := by
  unfold RepeatSched.timeUntilNext
  rcases lt_trichotomy t s.startTime with hlt | heq | hgt
  · rw [if_pos (le_of_lt hlt), if_pos hlt]
  · subst heq
    rw [if_pos (le_refl _), if_neg (lt_irrefl _), if_neg (not_lt.mpr hvalid)]
    simp only [sub_self, Int.zero_emod, sub_zero, Int.emod_self]
    omega
  · rw [if_neg (not_le.mpr hgt), if_neg (not_lt.mpr (le_of_lt hgt))]
    by_cases hend : s.endTime < t
    · rw [if_pos hend, if_pos hend]
    · rw [if_neg hend, if_neg hend]
      simp only [fmod_eq_emod_of_pos _ hpos]

/-- Witness for C4 at a concrete input: interval 10, start 0, end 100,
evaluated at t = 25 (the next event is at 30, i.e. 5 away). -/
theorem repeat_time_until_next_spec_witness :
    RepeatSched.timeUntilNext ⟨10, 0, 100⟩ 25 =
      if (25 : Int) < 0 then 0 - 25
      else if (100 : Int) < 25 then 100 - 25
      else min ((10 - ((25 - 0) % 10)) % 10) (100 - 25) :=
  repeat_time_until_next_spec ⟨10, 0, 100⟩ 25 (by decide) (by decide)

/-- C10 counterexample: the claim says `starting_now` with a `num_repeat`
argument returns a `Repeat` whenever `num_repeat >= 1`, but with a negative
interval (here -1 microsecond, `num_repeat` = 1) the computed end time
precedes the start time, so the constructor's assertion fails instead. -/
theorem starting_now_counterexample :
    startingNowNumRepeat (-1) 0 1 = .error .assertionError ∧
      ¬ (1 : Int) < 1 ∧
      ∀ r : RepeatSched, startingNowNumRepeat (-1) 0 1 ≠ .ok r := by
  refine ⟨by rfl, by decide, ?_⟩
  intro r h
  rw [show startingNowNumRepeat (-1) 0 1 = .error .assertionError from by rfl] at h
  cases h

/-- C10 (amended): every constructed `Repeat` satisfies
`start_time <= end_time` (construction fails the assertion otherwise), and
`Repeat.starting_now` with a `num_repeat` argument raises `ValueError` exactly
when `num_repeat < 1`; otherwise, whenever additionally
`start_time <= start_time + num_repeat * interval` (i.e. the interval is
nonnegative), it returns a `Repeat` with `end_time = start_time +
num_repeat * interval` (and when that inequality fails, the constructor's
assertion fails instead of returning). -/
theorem starting_now_spec (interval now numRepeat : Int) :
    (∀ i st en r, mkRepeat i st en = some r →
      r.startTime ≤ r.endTime ∧ r = ⟨i, st, en⟩) ∧
    ((∃ msg, startingNowNumRepeat interval now numRepeat = .error (.valueError msg)) ↔
      numRepeat < 1) ∧
    (1 ≤ numRepeat → 0 ≤ numRepeat * interval →
      startingNowNumRepeat interval now numRepeat =
        .ok ⟨interval, now, now + numRepeat * interval⟩) ∧
    (1 ≤ numRepeat → numRepeat * interval < 0 →
      startingNowNumRepeat interval now numRepeat = .error .assertionError) := by
  refine ⟨?_, ?_, ?_, ?_⟩
  · intro i st en r hmk
    unfold mkRepeat at hmk
    split at hmk
    · cases hmk
      exact ⟨by assumption, rfl⟩
    · cases hmk
  · constructor
    · rintro ⟨msg, hmsg⟩
      unfold startingNowNumRepeat at hmsg
      split at hmsg
      · assumption
      · unfold mkRepeat at hmsg
        split at hmsg <;> cases hmsg
    · intro h
      exact ⟨_, by unfold startingNowNumRepeat; rw [if_pos h]⟩
  · intro h1 h2
    unfold startingNowNumRepeat mkRepeat
    rw [if_neg (not_lt.mpr h1), if_pos (by omega)]
  · intro h1 h2
    unfold startingNowNumRepeat mkRepeat
    rw [if_neg (not_lt.mpr h1), if_neg (by omega)]

/-- Witness for C10 (amended) at interval 5, now 0, num_repeat 3: returns the
schedule ending at 15. -/
theorem starting_now_spec_witness :
    (1 : Int) ≤ 3 ∧ (0 : Int) ≤ 3 * 5 ∧
      startingNowNumRepeat 5 0 3 = .ok ⟨5, 0, 0 + 3 * 5⟩ :=
  ⟨by decide, by decide, ((starting_now_spec 5 0 3).2.2.1 (by decide) (by decide))⟩

end Defio.Schedule

namespace Defio.Runner

/-- C1: the executor worker pushes exactly one `QueryReport` onto the
completed queue per execution, and the i-th report reflects the i-th
execution outcome: a caught client/connection exception becomes the report's
`error` (with `results` null), a successful drain becomes `results` (with
`error` null); hence exactly one of the two fields is non-null in every
report. -/
theorem executor_report_per_execution {ρ : Type} (execO : Nat → Except Exn (List ρ))
    (clock : Nat → Int) (fuel : Nat) (queue : List (Option Int × SItem)) (ctr eidx : Nat) :
    (reportsOf (executorRun execO clock fuel queue ctr eidx).completed).length =
        (executorRun execO clock fuel queue ctr eidx).numExecs ∧
      ∀ i r,
        (reportsOf (executorRun execO clock fuel queue ctr eidx).completed).get? i = some r →
          (match execO (eidx + i) with
            | .ok rows => r.results = some rows ∧ r.error = none
            | .error e => r.results = none ∧ r.error = some e) ∧
            ((r.results ≠ none ∧ r.error = none) ∨ (r.results = none ∧ r.error ≠ none)) := by
  induction fuel generalizing queue ctr eidx with
  | zero =>
    refine ⟨rfl, ?_⟩
    intro i r h
    simp [executorRun, reportsOf] at h
  | succ n ih =>
    match queue with
    | [] =>
      refine ⟨rfl, ?_⟩
      intro i r h
      simp [executorRun, reportsOf] at h
    | (p, .done) :: rest =>
      refine ⟨rfl, ?_⟩
      intro i r h
      simp [executorRun, reportsOf] at h
    | (p, .sq sq) :: rest =>
      simp only [executorRun, reportsOf]
      constructor
      · simp [(ih _ _ (eidx + 1)).1]
      · intro i r h
        match i with
        | 0 =>
          simp only [List.get?] at h
          cases h
          cases hout : execO eidx with
          | ok rows =>
            refine ⟨?_, ?_⟩
            · simp only [Nat.add_zero, hout]
              simp [ScheduledQuery.createReport, hout]
            · left
              simp [ScheduledQuery.createReport, hout]
          | error e =>
            refine ⟨?_, ?_⟩
            · simp only [Nat.add_zero, hout]
              simp [ScheduledQuery.createReport, hout]
            · right
              simp [ScheduledQuery.createReport, hout]
        | i + 1 =>
          simp only [List.get?] at h
          have hrec := (ih _ _ (eidx + 1)).2 i r h
          have harith : eidx + (i + 1) = eidx + 1 + i := by omega
          rw [harith]
          exact hrec

end Defio.Runner

namespace Defio.Runner

/-- Witness for C1: a concrete two-item queue (one query, one `DONE`); the
single report carries the drained rows and a null error. -/
theorem executor_report_per_execution_witness :
    (reportsOf (executorRun exOracle (fun _ => 0) 2 exQueue 0 0).completed).get? 0 =
        some exReport ∧
      ((exReport.results ≠ none ∧ exReport.error = none) ∨
        (exReport.results = none ∧ exReport.error ≠ none)) :=
  ⟨rfl,
    ((executor_report_per_execution exOracle (fun _ => 0) 2 exQueue 0 0).2 0 exReport rfl).2⟩

/-- C2 helper: the cancellation drain reports exactly the remaining report
payloads, in order. -/
theorem drainRemaining_eq (l : List (RItem ρ)) :
    drainRemaining l = (reportsIn l).map REv.report := by
  induction l with
  | nil => rfl
  | cons hd tl ih => cases hd <;> simp [drainRemaining, reportsIn, ih]

/-- C2 helper: dropping the head of a list with at least two elements keeps
its last element. -/
theorem getLast?_cons_of_ne_nil {α : Type _} (hd : α) {tl : List α} (h : tl ≠ []) :
    (hd :: tl).getLast? = tl.getLast? := by
  cases tl with
  | nil => exact absurd rfl h
  | cons a l => simp [List.getLast?_cons_cons]

/-- C2 helper: a trace ending in `DONE` contains at least one `DONE`. -/
theorem countDone_pos_of_getLast {l : List (RItem ρ)} (h : l.getLast? = some .done) :
    1 ≤ countDone l := by
  induction l with
  | nil => simp at h
  | cons hd tl ih =>
    cases tl with
    | nil =>
      simp [List.getLast?] at h
      subst h
      simp [countDone]
    | cons a l2 =>
      have h' : (a :: l2).getLast? = some RItem.done := by
        rw [← getLast?_cons_of_ne_nil hd (by simp)]
        exact h
      have := ih h'
      cases hd
      · simpa [countDone] using this
      · simp [countDone]

/-- C2 helper: one-step unfolding of the reporter worker. -/
theorem reporterWorker_eq {ρ : Type} (numUsers : Nat) (cancelAt : Option Nat)
    (items : List (RItem ρ)) (numDone consumed : Nat) :
    reporterWorker numUsers cancelAt items numDone consumed =
      if cancelAt = some consumed then
        ⟨drainRemaining items ++ [.done], true, false⟩
      else
        match items with
        | [] => ⟨[], false, true⟩
        | .report r :: rest =>
            let out := reporterWorker numUsers cancelAt rest numDone (consumed + 1)
            ⟨.report r :: out.events, out.raised, out.starved⟩
        | .done :: rest =>
            if numDone + 1 = numUsers then ⟨[.done], false, false⟩
            else reporterWorker numUsers cancelAt rest (numDone + 1) (consumed + 1) := by
  rw [reporterWorker.eq_def]

/-- C2 helper (main induction): running the reporter worker over a trace whose
`DONE` count matches the remaining users and whose final item is a `DONE`
yields exactly the report calls for the trace's reports, in order, followed by
one `done()` call; cancellation re-raises exactly when it fires before the
worker has finished. -/
theorem reporterWorker_run {ρ : Type} (numUsers : Nat) (cancelAt : Option Nat) :
    ∀ (items : List (RItem ρ)) (numDone consumed : Nat),
      countDone items + numDone = numUsers →
      items.getLast? = some .done →
      (reporterWorker numUsers cancelAt items numDone consumed).events =
          (reportsIn items).map REv.report ++ [REv.done] ∧
        (reporterWorker numUsers cancelAt items numDone consumed).starved = false ∧
        ((reporterWorker numUsers cancelAt items numDone consumed).raised = true ↔
          ∃ k, cancelAt = some k ∧ consumed ≤ k ∧ k < consumed + items.length) := by
  intro items
  induction items with
  | nil =>
    intro numDone consumed h1 h2
    simp at h2
  | cons hd tl ih =>
    intro numDone consumed h1 h2
    rw [reporterWorker_eq]
    by_cases hc : cancelAt = some consumed
    · rw [if_pos hc]
      refine ⟨?_, rfl, ?_⟩
      · simp [drainRemaining_eq]
      · exact ⟨fun _ => ⟨consumed, hc, le_refl _, by simp⟩, fun _ => rfl⟩
    · rw [if_neg hc]
      cases hd with
      | report r =>
        have htl : tl ≠ [] := by
          intro hnil
          subst hnil
          simp [List.getLast?] at h2
        have h2' : tl.getLast? = some RItem.done := by
          rw [← getLast?_cons_of_ne_nil _ htl]
          exact h2
        have h1' : countDone tl + numDone = numUsers := by
          simpa [countDone] using h1
        have hrec := ih numDone (consumed + 1) h1' h2'
        refine ⟨?_, hrec.2.1, ?_⟩
        · simp only [reportsIn, List.map, List.cons_append]
          rw [hrec.1]
        · simp only []
          rw [hrec.2.2]
          constructor
          · rintro ⟨k, hk, hk1, hk2⟩
            refine ⟨k, hk, by omega, by simp [List.length_cons]; omega⟩
          · rintro ⟨k, hk, hk1, hk2⟩
            have hkne : k ≠ consumed := by
              intro hkc
              subst hkc
              exact hc hk
            refine ⟨k, hk, by omega, by simp [List.length_cons] at hk2; omega⟩
      | done =>
        dsimp only
        by_cases hn : numDone + 1 = numUsers
        · rw [if_pos hn]
          have h1' : countDone tl = 0 := by
            simp [countDone] at h1
            omega
          have htl : tl = [] := by
            cases tl with
            | nil => rfl
            | cons a l2 =>
              have h2' : (a :: l2).getLast? = some RItem.done := by
                rw [← getLast?_cons_of_ne_nil RItem.done (by simp)]
                exact h2
              have := countDone_pos_of_getLast h2'
              omega
          subst htl
          refine ⟨rfl, rfl, ?_⟩
          constructor
          · intro hfalse
            simp at hfalse
          · rintro ⟨k, hk, hk1, hk2⟩
            simp [List.length] at hk2
            have : k = consumed := by omega
            subst this
            exact absurd hk hc
        · rw [if_neg hn]
          have htl : tl ≠ [] := by
            intro hnil
            subst hnil
            simp [countDone] at h1
            omega
          have h2' : tl.getLast? = some RItem.done := by
            rw [← getLast?_cons_of_ne_nil _ htl]
            exact h2
          have h1' : countDone tl + (numDone + 1) = numUsers := by
            simp [countDone] at h1
            omega
          have hrec := ih (numDone + 1) (consumed + 1) h1' h2'
          refine ⟨?_, hrec.2.1, ?_⟩
          · simp only [reportsIn]
            rw [hrec.1]
          · rw [hrec.2.2]
            constructor
            · rintro ⟨k, hk, hk1, hk2⟩
              refine ⟨k, hk, by omega, by simp [List.length_cons]; omega⟩
            · rintro ⟨k, hk, hk1, hk2⟩
              have hkne : k ≠ consumed := by
                intro hkc
                subst hkc
                exact hc hk
              refine ⟨k, hk, by omega, by simp [List.length_cons] at hk2; omega⟩

/-- C2 helper: an event trace of reports followed by one `done` has exactly
one `done` call. -/
theorem countDoneEv_reports_append (rs : List ρ) :
    countDoneEv (rs.map REv.report ++ [REv.done]) = 1 := by
  induction rs with
  | nil => rfl
  | cons hd tl ih => simpa [countDoneEv] using ih

/-- C2: over a completed-queue trace holding one `DONE` sentinel per user with
the final item a `DONE` (each executor pushes all its reports before its
`DONE`), the reporter worker invokes `reporter.done()` exactly once, as its
last call, after a `reporter.report` call for every report in the queue; and
when the task group's cancellation fires at one of its queue interactions, it
first drains the remaining reports (skipping `DONE` sentinels), then calls
`done()` once before re-raising the cancellation. -/
theorem reporter_done_once {ρ : Type} (numUsers : Nat) (cancelAt : Option Nat)
    (items : List (RItem ρ)) (h1 : countDone items = numUsers)
    (h2 : items.getLast? = some .done) :
    (reporterWorker numUsers cancelAt items 0 0).events =
        (reportsIn items).map REv.report ++ [REv.done] ∧
      countDoneEv (reporterWorker numUsers cancelAt items 0 0).events = 1 ∧
      (reporterWorker numUsers cancelAt items 0 0).events.getLast? = some REv.done ∧
      (reporterWorker numUsers cancelAt items 0 0).starved = false ∧
      ((reporterWorker numUsers cancelAt items 0 0).raised = true ↔
        ∃ k, cancelAt = some k ∧ k < items.length) := by
  have h := reporterWorker_run numUsers cancelAt items 0 0 (by omega) h2
  refine ⟨h.1, ?_, ?_, h.2.1, ?_⟩
  · rw [h.1]
    exact countDoneEv_reports_append _
  · rw [h.1]
    exact List.getLast?_concat _
  · rw [h.2.2]
    constructor
    · rintro ⟨k, hk, _, hk2⟩
      exact ⟨k, hk, by omega⟩
    · rintro ⟨k, hk, hk2⟩
      exact ⟨k, hk, by omega, by omega⟩

/-- Witness for C2: two users, four queue items, no cancellation. -/
theorem reporter_done_once_witness :
    countDone exRItems = 2 ∧ exRItems.getLast? = some .done ∧
      ((reporterWorker 2 none exRItems 0 0).events =
          (reportsIn exRItems).map REv.report ++ [REv.done] ∧
        countDoneEv (reporterWorker 2 none exRItems 0 0).events = 1 ∧
        (reporterWorker 2 none exRItems 0 0).events.getLast? = some REv.done ∧
        (reporterWorker 2 none exRItems 0 0).starved = false ∧
        ((reporterWorker 2 none exRItems 0 0).raised = true ↔
          ∃ k, (none : Option Nat) = some k ∧ k < exRItems.length)) :=
  ⟨rfl, rfl, reporter_done_once 2 none exRItems rfl rfl⟩

end Defio.Runner

namespace Defio.Report

/-- C8 helper: scalar JSON round-trip. -/
theorem asScalar_toJVal (s : JScalar) : s.toJVal.asScalar = some s := by
  cases s <;> rfl

/-- C8 helper: a row of scalars survives the array round-trip. -/
theorem mapM_asScalar_toJVal (row : List JScalar) :
    mapMOpt JVal.asScalar (row.map JScalar.toJVal) = some row := by
  induction row with
  | nil => rfl
  | cons hd tl ih => simp [mapMOpt, asScalar_toJVal, ih]

/-- C8 helper: the result rows survive the nested-array round-trip. -/
theorem rowsFromJson_roundtrip (rows : List (List JScalar)) :
    mapMOpt rowFromJson (rows.map (fun row => JVal.arr (row.map JScalar.toJVal))) =
      some rows := by
  induction rows with
  | nil => rfl
  | cons hd tl ih => simp [mapMOpt, rowFromJson, mapM_asScalar_toJVal, ih]

/-- C8 helper: `timedelta(seconds=td.total_seconds())` recovers the timedelta
exactly (at the modelled exact-arithmetic level). -/
theorem timedelta_roundtrip (us : Int) :
    timedeltaOfSeconds (timedeltaTotalSeconds us) = us := by
  unfold timedeltaOfSeconds timedeltaTotalSeconds pyRoundHalfEven
  rw [div_mul_cancel₀ _ (by norm_num : (1000000 : ℚ) ≠ 0)]
  rw [Int.floor_intCast]
  norm_num

/-- C8: for every per-query report value (SQL string, execution-time duration,
result tuples), serializing it to its line form and parsing that back yields
the same value: `from_str(to_str(r)) == r`. -/
theorem minimum_report_roundtrip (sql : String) (us : Int) (rows : List (List JScalar)) :
    MinimumQueryReport.fromJson (MinimumQueryReport.toJson ⟨sql, us, some rows⟩) =
      some ⟨sql, us, some rows⟩ := by
  have l1 : lookupJson (MinimumQueryReport.toJson ⟨sql, us, some rows⟩) "sql" =
      some (.str sql) := rfl
  have l2 : lookupJson (MinimumQueryReport.toJson ⟨sql, us, some rows⟩) "execution_time" =
      some (.num (timedeltaTotalSeconds us)) := rfl
  have l3 : lookupJson (MinimumQueryReport.toJson ⟨sql, us, some rows⟩) "results" =
      some (.arr (rows.map (fun row => JVal.arr (row.map JScalar.toJVal)))) := rfl
  rw [MinimumQueryReport.fromJson, l1, l2, l3]
  dsimp only
  rw [rowsFromJson_roundtrip, timedelta_roundtrip]

/-- C7 (amended): every line written by the file reporter for a `QueryReport`
contains exactly the fields `sql` (the query's SQL), `execution_time` (the
execution time in seconds) and `results` (null exactly when the execution
failed); there is no error-message field. -/
theorem file_report_line_spec (qr : Runner.QueryReport (List JScalar)) :
    (fileReportLine qr).map Prod.fst = ["sql", "execution_time", "results"] ∧
      lookupJson (fileReportLine qr) "sql" = some (.str qr.query.sql) ∧
      lookupJson (fileReportLine qr) "execution_time" =
        some (.num (timedeltaTotalSeconds qr.executionTime)) ∧
      lookupJson (fileReportLine qr) "results" =
        some (match qr.results with
          | none => JVal.null
          | some rows => .arr (rows.map (fun row => JVal.arr (row.map JScalar.toJVal)))) ∧
      lookupJson (fileReportLine qr) "error_message" = none := by
  refine ⟨rfl, rfl, rfl, ?_, rfl⟩
  obtain ⟨u, q, pt, st, et, ext, res, err⟩ := qr
  cases res <;> rfl

/-- C7 counterexample: for a report of a failed execution (results null, error
non-null), the written line has a null `results` field and no error-message
field at all — contradicting the claim that each line carries an
error-message field with exactly one of the two non-null, with the failure's
message set. -/
theorem file_report_line_counterexample :
    fileReportLine
        ⟨⟨0⟩, ⟨"SELECT 1;", .once 0⟩, 0, 0, 0, 5, none, some "connection refused"⟩ =
      [("sql", .str "SELECT 1;"),
       ("execution_time", .num (timedeltaTotalSeconds 5)),
       ("results", .null)] ∧
      lookupJson
          (fileReportLine
            ⟨⟨0⟩, ⟨"SELECT 1;", .once 0⟩, 0, 0, 0, 5, none, some "connection refused"⟩)
          "error_message" = none ∧
      lookupJson
          (fileReportLine
            ⟨⟨0⟩, ⟨"SELECT 1;", .once 0⟩, 0, 0, 0, 5, none, some "connection refused"⟩)
          "results" = some .null :=
  ⟨rfl, rfl, rfl⟩

end Defio.Report

namespace Defio.SqlGen

/-- C6 (code bug): for a plan using table `t` twice, `generate_table_aliases`
formats the `UniqueTable` OBJECT into the alias (`f"{unique_table}_{i+1}"` —
str falls back to the attrs repr), producing
`UniqueTable(table=Table(...))_1`-style aliases instead of the claimed
`t_1`/`t_2` built from the underlying table's name (the grouping and the
`(table.name, identity)` ordering do match the claim). -/
theorem generate_table_aliases_bug :
    generateTableAliases idOracle exFcTT =
      [(exUtT0, exUtT0.strPy ++ "_1"), (exUtT1, exUtT1.strPy ++ "_2")] ∧
      aliasLookup (generateTableAliases idOracle exFcTT) exUtT0 ≠ some "t_1" ∧
      aliasLookup (generateTableAliases idOracle exFcTT) exUtT1 ≠ some "t_2" ∧
      exUtT0.strPy ++ "_1" ≠ "t_1" := by
  refine ⟨rfl, ?_, ?_, ?_⟩ <;> decide

/-- C3 (code bug): with a single PK-column table, `max_num_predicates = 0`,
`max_num_aggregates = 1`, `num_queries = 1` and a draw stream whose first
count-star flip is false, the generator's iteration raises before yielding
any SQL string: the aggregate sampler picks `COUNT` and the
`GenFunctionCall(..., agg_distinct=...)` call raises `TypeError` because
`GenFunctionCall` has no `agg_distinct` field.  So an iteration does not
yield `num_queries` strings at all (the two iterations still behave
identically, but the claimed sequences do not exist). -/
theorem generator_agg_distinct_bug :
    runGenerator exJc exPc exAc idOracle exSchemaP exStatsP (fun _ => 0) 1 =
        ([], true) ∧
      sampleAggregates exAc idOracle (.aliasedTable ⟨⟨"p", [exColId]⟩, 0⟩)
          ⟨fun _ => 0, 0⟩ = none :=
  ⟨rfl, rfl⟩

end Defio.SqlGen

namespace Defio.SqlGen

/-- Helper: `choose_one` returns an element of its input sequence. -/
theorem chooseOne_mem {α : Type _} {g : Rng} {arr : List α} {a : α} {g1 : Rng}
    (h : g.chooseOne arr = some (a, g1)) : a ∈ arr := by
  unfold Rng.chooseOne at h
  split at h
  · cases h
  · simp only [Rng.draw] at h
    cases h
    exact List.get_mem _ _ _

/-- Helper: `randint(n, inclusive=True)` stays within `[0, n]`. -/
theorem randintInclusive_le (g : Rng) (n : Nat) : (g.randintInclusive n).1 ≤ n := by
  unfold Rng.randintInclusive Rng.draw
  exact Nat.le_of_lt_succ (Nat.mod_lt _ (Nat.succ_pos n))

/-- Helper: what the common tail of a loop iteration produces. -/
theorem finishJoin_spec {cfg : JoinSamplerConfig} {st : JoinState} {edge : JoinEdge}
    {lut rut : UniqueTable} {lc rc : Column} {st1 : JoinState}
    (h : finishJoin cfg st edge lut rut lc rc = some st1) :
    ∃ jt, jt ∈ cfg.joinTypes ∧
      st1.joins = .join st.joins jt rut
        (JoinPredicate.mk (GenColumnReference.mk lut lc) .eq
          (GenColumnReference.mk rut rc)) ∧
      st1.pool = poolRemove st.pool edge ∧
      st1.joinTables = st.joinTables ∧ st1.uidCtr = st.uidCtr := by
  unfold finishJoin at h
  split at h
  · cases h
  · next jt rng1 heq =>
    cases h
    exact ⟨jt, chooseOne_mem heq, rfl, rfl, rfl, rfl⟩

/-- Helper: one loop iteration adds at most one join, whose type comes from
`config.join_types`. -/
theorem sampleJoinsIter_bound {cfg : JoinSamplerConfig} {o : SetOracle}
    {schema : Schema} {edge : JoinEdge} {st st1 : JoinState}
    (h : sampleJoinsIter cfg o schema edge st = some st1) :
    st1.joins.numJoins ≤ st.joins.numJoins + 1 ∧
      ∀ jt ∈ st1.joins.joinTypesOf,
        jt ∈ st.joins.joinTypesOf ∨ jt ∈ cfg.joinTypes := by
  have key : ∀ (st0 : JoinState) (lut rut : UniqueTable) (lc rc : Column),
      finishJoin cfg st0 edge lut rut lc rc = some st1 →
      st0.joins = st.joins →
      st1.joins.numJoins ≤ st.joins.numJoins + 1 ∧
        ∀ jt ∈ st1.joins.joinTypesOf,
          jt ∈ st.joins.joinTypesOf ∨ jt ∈ cfg.joinTypes := by
    intro st0 lut rut lc rc hfin hj
    obtain ⟨jt, hjt, hjoins, -, -, -⟩ := finishJoin_spec hfin
    rw [hj] at hjoins
    constructor
    · rw [hjoins]
      exact Nat.le_refl _
    · intro jt2 hjt2
      rw [hjoins] at hjt2
      rcases List.mem_cons.mp hjt2 with h2 | h2
      · exact Or.inr (h2 ▸ hjt)
      · exact Or.inl h2
  unfold sampleJoinsIter at h
  dsimp only at h
  rcases hft : lookupJT st.joinTables edge.first.table with _ | lut <;>
    rcases hsd : lookupJT st.joinTables edge.second.table with _ | sut <;>
    rw [hft, hsd] at h <;> dsimp only at h
  · cases h
  · exact key _ _ _ _ _ h rfl
  · exact key _ _ _ _ _ h rfl
  · by_cases hsame : (edge.first.table == edge.second.table) = true
    · rw [if_pos hsame] at h
      by_cases hself : (!cfg.withSelfJoin) = true
      · rw [if_pos hself] at h
        cases h
        exact ⟨Nat.le_succ_of_le (Nat.le_refl _), fun jt hjt => Or.inl hjt⟩
      · rw [if_neg hself] at h
        exact key _ _ _ _ _ h rfl
    · rw [if_neg hsame] at h
      exact key _ _ _ _ _ h rfl

/-- Helper: the sampling loop adds at most `k` joins, all with configured
types. -/
theorem sampleJoinsLoop_bound {cfg : JoinSamplerConfig} {o : SetOracle}
    {schema : Schema} :
    ∀ (k : Nat) {st st1 : JoinState},
      sampleJoinsLoop cfg o schema k st = some st1 →
      st1.joins.numJoins ≤ st.joins.numJoins + k ∧
        ∀ jt ∈ st1.joins.joinTypesOf,
          jt ∈ st.joins.joinTypesOf ∨ jt ∈ cfg.joinTypes := by
  intro k
  induction k with
  | zero =>
    intro st st1 h
    simp only [sampleJoinsLoop] at h
    cases h
    exact ⟨Nat.le_refl _, fun jt hjt => Or.inl hjt⟩
  | succ n ih =>
    intro st st1 h
    rw [sampleJoinsLoop] at h
    split at h
    · cases h
      exact ⟨Nat.le_add_right _ _, fun jt hjt => Or.inl hjt⟩
    · split at h
      · cases h
      · next edge rng1 heq =>
        split at h
        · cases h
        · next st2 hiter =>
          have hstep := sampleJoinsIter_bound hiter
          have hrec := ih h
          refine ⟨?_, ?_⟩
          · calc st1.joins.numJoins ≤ st2.joins.numJoins + n := hrec.1
              _ ≤ (st.joins.numJoins + 1) + n := Nat.add_le_add_right hstep.1 n
              _ = st.joins.numJoins + (n + 1) := by omega
          · intro jt hjt
            rcases hrec.2 jt hjt with h2 | h2
            · exact hstep.2 jt h2
            · exact Or.inr h2

/-- C9: every from-clause returned by `JoinSampler.sample_joins` has at most
`config.max_num_joins` joins, and every emitted join's type is an element of
`config.join_types`. -/
theorem sample_joins_bounds {cfg : JoinSamplerConfig} {o : SetOracle}
    {schema : Schema} {rng : Rng} {uid : Nat} {fc : GenFromClause}
    {rng1 : Rng} {uid1 : Nat}
    (h : sampleJoins cfg o schema rng uid = some (fc, rng1, uid1)) :
    fc.numJoins ≤ cfg.maxNumJoins ∧ ∀ jt ∈ fc.joinTypesOf, jt ∈ cfg.joinTypes := by
  unfold sampleJoins at h
  split at h
  · cases h
  · next tr heq =>
    dsimp only at h
    split at h
    · cases h
    · next st hloop =>
      have hbound := sampleJoinsLoop_bound _ hloop
      cases h
      simp only [GenFromClause.numJoins, GenFromClause.joinTypesOf] at hbound
      refine ⟨?_, ?_⟩
      · calc st.joins.numJoins ≤ 0 + (tr.2.randintInclusive cfg.maxNumJoins).1 := hbound.1
          _ ≤ cfg.maxNumJoins := by
            have := randintInclusive_le tr.2 cfg.maxNumJoins
            omega
      · intro jt hjt
        rcases hbound.2 jt hjt with h2 | h2
        · cases h2
        · exact h2

/-- Witness for C9: the one-table, zero-relationship schema with
`max_num_joins = 0` yields a bare aliased table within the bounds. -/
theorem sample_joins_bounds_witness :
    sampleJoins exJc idOracle exSchemaP ⟨fun _ => 0, 0⟩ 0 =
        some (.aliasedTable ⟨⟨"p", [exColId]⟩, 0⟩, ⟨fun _ => 0, 2⟩, 1) ∧
      (GenFromClause.aliasedTable ⟨⟨"p", [exColId]⟩, 0⟩).numJoins ≤ exJc.maxNumJoins ∧
      ∀ jt ∈ (GenFromClause.aliasedTable ⟨⟨"p", [exColId]⟩, 0⟩).joinTypesOf,
        jt ∈ exJc.joinTypes := by
  have h : sampleJoins exJc idOracle exSchemaP ⟨fun _ => 0, 0⟩ 0 =
      some (.aliasedTable ⟨⟨"p", [exColId]⟩, 0⟩, ⟨fun _ => 0, 2⟩, 1) := rfl
  exact ⟨h, (sample_joins_bounds h).1, (sample_joins_bounds h).2⟩

end Defio.SqlGen

namespace Defio.SqlGen

/-- C5 (amended): classification of one loop iteration of
`JoinSampler.sample_joins` on the chosen edge.  (1) Both endpoints in the SAME
already-present table with `with_self_join` unset: the iteration is skipped
with the state unchanged — the loop's decision is consumed but the edge is
NOT removed from the pool.  (2) Same present table with `with_self_join` set:
a self-join against a fresh right `UniqueTable` is emitted and the edge is
removed.  (3) Both endpoints in two DISTINCT present tables: a join between
the two existing `UniqueTable`s is emitted regardless of `with_self_join`,
no table is added, and the edge is removed.  (4)/(5) Exactly one endpoint
new: the plan is extended with that endpoint as a fresh `UniqueTable`, the
endpoint's candidate edges are unioned into the pool, the edge is removed,
and the already-joined endpoint becomes the left side of the equijoin.
(6) Both endpoints new: impossible (`RuntimeError`). -/
theorem sample_joins_iter_cases (cfg : JoinSamplerConfig) (o : SetOracle)
    (schema : Schema) (edge : JoinEdge) (st : JoinState) :
    (∀ lut sut,
      lookupJT st.joinTables edge.first.table = some lut →
      lookupJT st.joinTables edge.second.table = some sut →
      edge.first.table = edge.second.table →
      cfg.withSelfJoin = false →
      sampleJoinsIter cfg o schema edge st = some st) ∧
    (∀ lut sut st1,
      lookupJT st.joinTables edge.first.table = some lut →
      lookupJT st.joinTables edge.second.table = some sut →
      edge.first.table = edge.second.table →
      cfg.withSelfJoin = true →
      sampleJoinsIter cfg o schema edge st = some st1 →
      ∃ jt ∈ cfg.joinTypes,
        st1.joins = .join st.joins jt ⟨edge.second.table, st.uidCtr⟩
          ⟨⟨lut, edge.first.column⟩, .eq,
            ⟨⟨edge.second.table, st.uidCtr⟩, edge.second.column⟩⟩ ∧
        st1.pool = poolRemove st.pool edge ∧
        st1.joinTables = st.joinTables ∧ st1.uidCtr = st.uidCtr + 1) ∧
    (∀ lut sut st1,
      lookupJT st.joinTables edge.first.table = some lut →
      lookupJT st.joinTables edge.second.table = some sut →
      edge.first.table ≠ edge.second.table →
      sampleJoinsIter cfg o schema edge st = some st1 →
      ∃ jt ∈ cfg.joinTypes,
        st1.joins = .join st.joins jt sut
          ⟨⟨lut, edge.first.column⟩, .eq, ⟨sut, edge.second.column⟩⟩ ∧
        st1.pool = poolRemove st.pool edge ∧
        st1.joinTables = st.joinTables ∧ st1.uidCtr = st.uidCtr) ∧
    (∀ lut st1,
      lookupJT st.joinTables edge.first.table = some lut →
      lookupJT st.joinTables edge.second.table = none →
      sampleJoinsIter cfg o schema edge st = some st1 →
      st1.joinTables = st.joinTables ++
          [(edge.second.table, ⟨edge.second.table, st.uidCtr⟩)] ∧
        st1.pool = poolRemove
          (poolUnion st.pool (getPossibleJoinEdges o schema edge.second.table)) edge ∧
        st1.uidCtr = st.uidCtr + 1 ∧
        ∃ jt ∈ cfg.joinTypes,
          st1.joins = .join st.joins jt ⟨edge.second.table, st.uidCtr⟩
            ⟨⟨lut, edge.first.column⟩, .eq,
              ⟨⟨edge.second.table, st.uidCtr⟩, edge.second.column⟩⟩) ∧
    (∀ sut st1,
      lookupJT st.joinTables edge.first.table = none →
      lookupJT st.joinTables edge.second.table = some sut →
      sampleJoinsIter cfg o schema edge st = some st1 →
      st1.joinTables = st.joinTables ++
          [(edge.first.table, ⟨edge.first.table, st.uidCtr⟩)] ∧
        st1.pool = poolRemove
          (poolUnion st.pool (getPossibleJoinEdges o schema edge.first.table)) edge ∧
        st1.uidCtr = st.uidCtr + 1 ∧
        ∃ jt ∈ cfg.joinTypes,
          st1.joins = .join st.joins jt ⟨edge.first.table, st.uidCtr⟩
            ⟨⟨sut, edge.second.column⟩, .eq,
              ⟨⟨edge.first.table, st.uidCtr⟩, edge.first.column⟩⟩) ∧
    (lookupJT st.joinTables edge.first.table = none →
      lookupJT st.joinTables edge.second.table = none →
      sampleJoinsIter cfg o schema edge st = none) := by
  refine ⟨?_, ?_, ?_, ?_, ?_, ?_⟩
  · intro lut sut hft hsd hsame hself
    unfold sampleJoinsIter
    dsimp only
    rw [hft, hsd]
    dsimp only
    rw [if_pos (by rw [beq_iff_eq]; exact hsame), if_pos (by rw [hself]; rfl)]
  · intro lut sut st1 hft hsd hsame hself h
    unfold sampleJoinsIter at h
    dsimp only at h
    rw [hft, hsd] at h
    dsimp only at h
    rw [if_pos (by rw [beq_iff_eq]; exact hsame),
      if_neg (by rw [hself]; simp)] at h
    obtain ⟨jt, hjt, hjoins, hpool, hjts, huid⟩ := finishJoin_spec h
    exact ⟨jt, hjt, hjoins, hpool, hjts, huid⟩
  · intro lut sut st1 hft hsd hne h
    unfold sampleJoinsIter at h
    dsimp only at h
    rw [hft, hsd] at h
    dsimp only at h
    rw [if_neg (by rw [beq_iff_eq]; exact hne)] at h
    obtain ⟨jt, hjt, hjoins, hpool, hjts, huid⟩ := finishJoin_spec h
    exact ⟨jt, hjt, hjoins, hpool, hjts, huid⟩
  · intro lut st1 hft hsd h
    unfold sampleJoinsIter at h
    dsimp only at h
    rw [hft, hsd] at h
    dsimp only at h
    obtain ⟨jt, hjt, hjoins, hpool, hjts, huid⟩ := finishJoin_spec h
    exact ⟨hjts, hpool, huid, jt, hjt, hjoins⟩
  · intro sut st1 hft hsd h
    unfold sampleJoinsIter at h
    dsimp only at h
    rw [hft, hsd] at h
    dsimp only at h
    obtain ⟨jt, hjt, hjoins, hpool, hjts, huid⟩ := finishJoin_spec h
    exact ⟨hjts, hpool, huid, jt, hjt, hjoins⟩
  · intro hft hsd
    unfold sampleJoinsIter
    dsimp only
    rw [hft, hsd]

/-- Witness for C5 (amended), case (1): a skipped self-join on the concrete
self-FK table leaves the state (including the pool) unchanged. -/
theorem sample_joins_iter_cases_witness :
    sampleJoinsIter exCfgNoSelf idOracle exSchemaAB exEdgeAA exStateA =
      some exStateA :=
  (sample_joins_iter_cases exCfgNoSelf idOracle exSchemaAB exEdgeAA exStateA).1
    exUtA exUtA rfl rfl rfl rfl

/-- C5 counterexample to the claim as stated: (a) for the skipped self-join
(`with_self_join` unset) the chosen edge is NOT removed from the candidate
pool (the state is returned unchanged, the edge still in it), contradicting
"in every case the chosen edge is removed"; and (b) for an edge whose two
endpoints lie in two DISTINCT tables already in the plan, a join IS emitted
even though `with_self_join` is unset, contradicting "emits a self-join only
if with_self_join is set and otherwise skips that edge". -/
theorem sample_joins_iter_counterexample :
    sampleJoinsIter exCfgNoSelf idOracle exSchemaAB exEdgeAA exStateA =
        some exStateA ∧
      edgeMem exEdgeAA exStateA.pool = true ∧
      exCfgNoSelf.withSelfJoin = false ∧
      sampleJoinsIter exCfgNoSelf idOracle exSchemaAB exEdgeAB exStateAB =
        some exStateABAfter ∧
      exStateABAfter.joins.numJoins = exStateAB.joins.numJoins + 1 :=
  ⟨rfl, rfl, rfl, rfl, rfl⟩

end Defio.SqlGen
